import Mathlib

/-!
Verification model of the bytecode-to-LLVM-IR lowering engine in
Python/ll_compile.cc (class LlvmFunctionBuilder).

The embedding mirrors the C++ source line by line: the IRBuilder is modelled
as a state monad over a block-tagged instruction log.  Every call of the
builder appends one entry (blockId, instruction) to the log; a basic block's
body is the subsequence of the log tagged with its id, exactly as the real
IRBuilder appends instructions to the insertion block.  Block ids are
allocated in creation order (BasicBlock::Create), value ids in creation
order of instruction results.

Granularity notes, kept uniform through the file:
  - Push/Pop (ll_compile.cc:2093-2112) each compile to a short fixed bundle
    of loads/stores/GEPs on the stack-pointer slot; they are modelled as the
    single instructions .push / .pop since every lowering rule uses them only
    through these helpers.
  - IncRef and the refcount decrement inside DecRef (ll_compile.cc:2009-2077)
    are likewise fixed bundles, modelled as .incRef / .decRefDec.  The
    conditional dealloc branch of DecRef is modelled faithfully with its own
    blocks.  The Py_REF_DEBUG / Py_TRACE_REFS / COUNT_ALLOCS conditional
    code is taken in the release configuration (macros undefined).
  - IsNull / IsNonZero (ll_compile.cc:2160-2172) create an icmp used only as
    a branch condition; they are modelled as condition constructors.
  - Module-level constants (GetGlobalVariable, Constant::getNullValue) and
    the per-function pointers computed in the constructor (consts_, names_,
    fastlocals_, ...) are modelled as distinguished values, not fresh
    instruction results.
-/

namespace LlvmFB

/-- Values flowing through the emitted IR: fresh instruction results,
module-level globals, the null-pointer constant, integer constants, the
two allocas of the function prologue, and the pointers the constructor
caches as members (consts_, names_, fastlocals_, freevars_, globals_,
builtins_, frame_). -/
inductive Val where
  | v (n : Nat)
  | global (name : String)
  | member (name : String)
  | nullConst
  | intConst (i : Int)
  | spAddr
  | retvalAddr
deriving DecidableEq

/-- Branch conditions: the IsNull / IsNonZero helpers of the source, or an
explicitly materialized boolean value (icmp / phi result). -/
inductive Cond where
  | isNull (a : Val)
  | isNonZero (a : Val)
  | boolVal (a : Val)
deriving DecidableEq

/-- One emitted IR instruction. -/
inductive Instr where
  | instr (s : String)
  | alloca (name : String) (dst : Val)
  | load (addr : Val) (dst : Val)
  | store (addr : Val) (v : Val)
  | gep (base : Val) (off : Val) (dst : Val)
  | icmp (kind : String) (a b : Val) (dst : Val)
  | select (c t f dst : Val)
  | phi (dst : Val)
  | pop (dst : Val)
  | push (v : Val)
  | incRef (a : Val)
  | decRefDec (a : Val) (newCnt : Val)
  | callRt (f : String) (args : List Val) (dst : Val)
  | callRtVoid (f : String) (args : List Val)
  | callIndirect (desc : String) (args : List Val) (dst : Val)
  | ret (a : Val)
  | br (t : Nat)
  | condbr (c : Cond) (t f : Nat)
deriving DecidableEq

def Instr.isTerminator : Instr → Bool
  | .ret _ => true
  | .br _ => true
  | .condbr _ _ _ => true
  | _ => false

/-- State of the function builder: fresh-block counter, fresh-value counter,
current insertion block, and the emission log. -/
structure BState where
  nextBlock : Nat
  nextVal : Nat
  cur : Nat
  log : List (Nat × Instr)
deriving DecidableEq

/-- The builder monad: explicit state passing over BState. -/
def Build (α : Type) : Type := BState → α × BState

def Build.pure {α : Type} (a : α) : Build α := fun s => (a, s)

def Build.bind {α β : Type} (m : Build α) (f : α → Build β) : Build β :=
  fun s => f (m s).1 (m s).2

instance : Monad Build where
  pure := Build.pure
  bind := Build.bind

@[simp] theorem Build.bind_apply {α β : Type} (m : Build α) (f : α → Build β) (s : BState) :
    (Build.bind m f) s = f (m s).1 (m s).2 := rfl

@[simp] theorem Build.pure_apply {α : Type} (a : α) (s : BState) :
    (Build.pure a : Build α) s = (a, s) := rfl

@[simp] theorem Build.monad_bind {α β : Type} (m : Build α) (f : α → Build β) :
    (m >>= f) = Build.bind m f := rfl

@[simp] theorem Build.monad_pure {α : Type} (a : α) :
    (Pure.pure a : Build α) = Build.pure a := rfl

/-- Body of a basic block, in execution order: the log holds the newest
emission first, so the entries tagged with the block id are reversed. -/
def blockInstrs (log : List (Nat × Instr)) (b : Nat) : List Instr :=
  ((log.filter (fun p => p.1 == b)).map (fun p => p.2)).reverse

/-- True when an instruction list ends with a terminator. -/
def terminatedB : List Instr → Bool
  | [] => false
  | [i] => i.isTerminator
  | _ :: rest => terminatedB rest

/-- True when every instruction but possibly the last is a non-terminator:
the well-formedness condition on a finished basic block body. -/
def tolB : List Instr → Bool
  | [] => true
  | [_] => true
  | i :: rest => !i.isTerminator && tolB rest

/-- True when the block already ends with a terminator
(BasicBlock::getTerminator() != NULL): the most recent emission into the
block, which heads the log, is a terminator. -/
def blockTerminated (log : List (Nat × Instr)) (b : Nat) : Bool :=
  match log.find? (fun p => p.1 == b) with
  | some p => p.2.isTerminator
  | none => false

def emit (i : Instr) : Build Unit :=
  fun s => ((), { s with log := (s.cur, i) :: s.log })

def newBlock (_name : String) : Build Nat :=
  fun s => (s.nextBlock, { s with nextBlock := s.nextBlock + 1 })

def freshVal : Build Val :=
  fun s => (.v s.nextVal, { s with nextVal := s.nextVal + 1 })

def setInsert (b : Nat) : Build Unit :=
  fun s => ((), { s with cur := b })

def getInsertBlock : Build Nat := fun s => (s.cur, s)

def getState : Build BState := fun s => (s, s)

/-- Id of the unified return block (second block created by the constructor,
after the entry block). -/
def returnBlockId : Nat := 1

/-- Model of LlvmFunctionBuilder::FallThroughTo (ll_compile.cc:591-600):
branch to the next block only if the current block has no terminator yet,
then reposition the insertion point. -/
def FallThroughTo (next : Nat) : Build Unit := do
  let s ← getState
  if blockTerminated s.log s.cur then Build.pure () else emit (.br next)
  setInsert next

/-- Model of LlvmFunctionBuilder::Return (ll_compile.cc:602-607): store the
return value into the shared retval slot and branch to the unified return
block. -/
def Return (retval : Val) : Build Unit := do
  emit (.store .retvalAddr retval)
  emit (.br returnBlockId)

/-- Model of LlvmFunctionBuilder::IncRef (ll_compile.cc:2009-2023), release
configuration: the in-place refcount increment bundle. -/
def IncRef (v : Val) : Build Unit := emit (.incRef v)

/-- Model of LlvmFunctionBuilder::DecRef (ll_compile.cc:2025-2077), release
configuration: decrement the refcount, then branch to the dealloc call when
it reached zero. -/
def DecRef (v : Val) : Build Unit := do
  let newCnt ← freshVal
  emit (.decRefDec v newCnt)
  let blockDealloc ← newBlock "dealloc"
  let blockTail ← newBlock "decref_tail"
  emit (.condbr (.isNonZero newCnt) blockTail blockDealloc)
  setInsert blockDealloc
  emit (.callRtVoid "_PyLlvm_WrapDealloc" [v])
  emit (.br blockTail)
  setInsert blockTail

/-- Model of LlvmFunctionBuilder::XDecRef (ll_compile.cc:2079-2091): skip the
decref entirely when the value is null. -/
def XDecRef (v : Val) : Build Unit := do
  let doDecref ← newBlock "decref"
  let decrefEnd ← newBlock "decref_end"
  emit (.condbr (.isNull v) decrefEnd doDecref)
  setInsert doDecref
  DecRef v
  emit (.br decrefEnd)
  setInsert decrefEnd

/-- Model of LlvmFunctionBuilder::Push (ll_compile.cc:2093-2101). -/
def Push (v : Val) : Build Unit := emit (.push v)

/-- Model of LlvmFunctionBuilder::Pop (ll_compile.cc:2103-2112); the returned
value is the loaded former top of stack. -/
def Pop : Build Val := do
  let dst ← freshVal
  emit (.pop dst)
  Build.pure dst

/-- Emission of a call to a runtime entry point resolved by name
(GetGlobalFunction + CreateCall), returning its result value. -/
def CallRt (f : String) (args : List Val) : Build Val := do
  let dst ← freshVal
  emit (.callRt f args dst)
  Build.pure dst

/-- Emission of a call to a void runtime entry point. -/
def CallRtVoid (f : String) (args : List Val) : Build Unit :=
  emit (.callRtVoid f args)

/-- Model of LlvmFunctionBuilder::LookupName (ll_compile.cc:2124-2132). -/
def LookupName (namesIndex : Int) : Build Val := do
  let a ← freshVal
  emit (.gep (.member "names") (.intConst namesIndex) a)
  let name ← freshVal
  emit (.load a name)
  Build.pure name

/-- Model of LlvmFunctionBuilder::SetLocal (ll_compile.cc:2114-2122). -/
def SetLocal (localsIndex : Int) (newValue : Val) : Build Unit := do
  let localSlot ← freshVal
  emit (.gep (.member "fastlocals") (.intConst localsIndex) localSlot)
  let origValue ← freshVal
  emit (.load localSlot origValue)
  emit (.store localSlot newValue)
  XDecRef origValue

/-- Model of LlvmFunctionBuilder::IsTrue (ll_compile.cc:2174-2229). -/
def IsTrue (value : Val) : Build Val := do
  let notPyTrue ← newBlock "IsTrue_is_not_PyTrue"
  let notPyFalse ← newBlock "IsTrue_is_not_PyFalse"
  let failure ← newBlock "IsTrue_failure"
  let success ← newBlock "IsTrue_success"
  let doneB ← newBlock "IsTrue_done"
  let pyFalse := Val.global "_Py_ZeroStruct"
  let pyTrue := Val.global "_Py_TrueStruct"
  let isPyTrue ← freshVal
  emit (.icmp "eq" pyTrue value isPyTrue)
  emit (.condbr (.boolVal isPyTrue) doneB notPyTrue)
  setInsert notPyTrue
  let isPyFalse ← freshVal
  emit (.icmp "eq" pyFalse value isPyFalse)
  emit (.condbr (.boolVal isPyFalse) doneB notPyFalse)
  setInsert notPyFalse
  let istrueResult ← CallRt "PyObject_IsTrue" [value]
  let isError ← freshVal
  emit (.icmp "slt" istrueResult (.intConst 0) isError)
  emit (.condbr (.boolVal isError) failure success)
  setInsert failure
  Return .nullConst
  setInsert success
  let isNonzero ← freshVal
  emit (.icmp "sgt" istrueResult (.intConst 0) isNonzero)
  emit (.br doneB)
  setInsert doneB
  let phiResult ← freshVal
  emit (.phi phiResult)
  Build.pure phiResult

/-- Model of LlvmFunctionBuilder::FillReturnBlock (ll_compile.cc:561-589):
fill the unified return block with the pop-and-release drain loop followed
by the load-and-return of the shared retval slot. -/
def FillReturnBlock : Build Unit := do
  let origBlock ← getInsertBlock
  setInsert returnBlockId
  let stackBottom ← freshVal
  emit (.load (.member "f_valuestack") stackBottom)
  let popLoop ← newBlock "pop_loop"
  let popBlock ← newBlock "pop_stack"
  let doReturn ← newBlock "do_return"
  FallThroughTo popLoop
  let stackPointer ← freshVal
  emit (.load .spAddr stackPointer)
  let finishedPopping ← freshVal
  emit (.icmp "ule" stackPointer stackBottom finishedPopping)
  emit (.condbr (.boolVal finishedPopping) doReturn popBlock)
  setInsert popBlock
  let top ← Pop
  XDecRef top
  emit (.br popLoop)
  setInsert doReturn
  let retval ← freshVal
  emit (.load .retvalAddr retval)
  emit (.ret retval)
  setInsert origBlock

/-- Model of the LlvmFunctionBuilder constructor (ll_compile.cc:456-559):
create the entry and return blocks, allocate the stack-pointer and retval
slots, initialize the stack pointer from the frame, compute the cached
member pointers, and fill the return block before any opcode is lowered. -/
def ConstructorBuild : Build Unit := do
  let entry ← newBlock "entry"
  setInsert entry
  let _returnBlock ← newBlock "return_block"
  emit (.alloca "stack_pointer_addr" .spAddr)
  emit (.alloca "retval_addr" .retvalAddr)
  let initialStackPointer ← freshVal
  emit (.load (.member "f_stacktop") initialStackPointer)
  emit (.store .spAddr initialStackPointer)
  emit (.instr "compute_member_pointers")
  FillReturnBlock

def initState : BState := { nextBlock := 0, nextVal := 0, cur := 0, log := [] }

/-- The builder state right after the constructor ran, before any opcode is
lowered. -/
def constructorState : BState := (ConstructorBuild initState).2

/-! Lowering rules, one per opcode, in source order (ll_compile.cc:609-1995).
Integer opcode operands keep the C int type as Int. -/

/-- Model of LlvmFunctionBuilder::LOAD_CONST (ll_compile.cc:609-617). -/
def LOAD_CONST (index : Int) : Build Unit := do
  let a ← freshVal
  emit (.gep (.member "consts") (.intConst index) a)
  let constV ← freshVal
  emit (.load a constV)
  IncRef constV
  Push constV

/-- Model of LlvmFunctionBuilder::LOAD_GLOBAL (ll_compile.cc:619-660). -/
def LOAD_GLOBAL (namesIndex : Int) : Build Unit := do
  let globalMissing ← newBlock "GetGlobal_global_missing"
  let globalSuccess ← newBlock "GetGlobal_global_success"
  let builtinMissing ← newBlock "GetGlobal_builtin_missing"
  let builtinSuccess ← newBlock "GetGlobal_builtin_success"
  let doneB ← newBlock "GetGlobal_done"
  let name ← LookupName namesIndex
  let globalV ← CallRt "PyDict_GetItem" [.member "globals", name]
  emit (.condbr (.isNull globalV) globalMissing globalSuccess)
  setInsert globalSuccess
  IncRef globalV
  Push globalV
  emit (.br doneB)
  setInsert globalMissing
  let builtin ← CallRt "PyDict_GetItem" [.member "builtins", name]
  emit (.condbr (.isNull builtin) builtinMissing builtinSuccess)
  setInsert builtinMissing
  CallRtVoid "_PyEval_RaiseForGlobalNameError" [.member "frame", name]
  Return .nullConst
  setInsert builtinSuccess
  IncRef builtin
  Push builtin
  emit (.br doneB)
  setInsert doneB

/-- Model of LlvmFunctionBuilder::STORE_GLOBAL (ll_compile.cc:662-683). -/
def STORE_GLOBAL (namesIndex : Int) : Build Unit := do
  let failure ← newBlock "STORE_GLOBAL_failure"
  let success ← newBlock "STORE_GLOBAL_success"
  let name ← LookupName namesIndex
  let value ← Pop
  let result ← CallRt "PyDict_SetItem" [.member "globals", name, value]
  DecRef value
  emit (.condbr (.isNonZero result) failure success)
  setInsert failure
  Return .nullConst
  setInsert success

/-- Model of LlvmFunctionBuilder::DELETE_GLOBAL (ll_compile.cc:685-706). -/
def DELETE_GLOBAL (namesIndex : Int) : Build Unit := do
  let failure ← newBlock "DELETE_GLOBAL_failure"
  let success ← newBlock "DELETE_GLOBAL_success"
  let name ← LookupName namesIndex
  let result ← CallRt "PyDict_DelItem" [.member "globals", name]
  emit (.condbr (.isNonZero result) failure success)
  setInsert failure
  CallRtVoid "_PyEval_RaiseForGlobalNameError" [.member "frame", name]
  Return .nullConst
  setInsert success

/-- Model of LlvmFunctionBuilder::LOAD_FAST (ll_compile.cc:708-735). -/
def LOAD_FAST (index : Int) : Build Unit := do
  let unboundLocal ← newBlock "LOAD_FAST_unbound"
  let success ← newBlock "LOAD_FAST_success"
  let a ← freshVal
  emit (.gep (.member "fastlocals") (.intConst index) a)
  let localV ← freshVal
  emit (.load a localV)
  emit (.condbr (.isNull localV) unboundLocal success)
  setInsert unboundLocal
  CallRtVoid "_PyEval_RaiseForUnboundLocal" [.member "frame", .intConst index]
  Return .nullConst
  setInsert success
  IncRef localV
  Push localV

/-- Model of LlvmFunctionBuilder::LOAD_DEREF (ll_compile.cc:737-780). -/
def LOAD_DEREF (index : Int) : Build Unit := do
  let failedLoad ← newBlock "LOAD_DEREF_failed_load"
  let unboundLocal ← newBlock "LOAD_DEREF_unbound_local"
  let error ← newBlock "LOAD_DEREF_error"
  let success ← newBlock "LOAD_DEREF_success"
  let a ← freshVal
  emit (.gep (.member "freevars") (.intConst index) a)
  let cell ← freshVal
  emit (.load a cell)
  let value ← CallRt "PyCell_Get" [cell]
  emit (.condbr (.isNull value) failedLoad success)
  setInsert failedLoad
  let wasErr ← CallRt "PyErr_Occurred" []
  emit (.condbr (.isNull wasErr) unboundLocal error)
  setInsert unboundLocal
  CallRtVoid "_PyEval_RaiseForUnboundLocal" [.member "frame", .intConst index]
  Return .nullConst
  setInsert error
  Return .nullConst
  setInsert success
  Push value

/-- Model of LlvmFunctionBuilder::STORE_DEREF (ll_compile.cc:782-807). -/
def STORE_DEREF (index : Int) : Build Unit := do
  let failure ← newBlock "STORE_DEREF_failure"
  let success ← newBlock "STORE_DEREF_success"
  let value ← Pop
  let a ← freshVal
  emit (.gep (.member "freevars") (.intConst index) a)
  let cell ← freshVal
  emit (.load a cell)
  let result ← CallRt "PyCell_Set" [cell, value]
  DecRef value
  emit (.condbr (.isNonZero result) failure success)
  setInsert failure
  Return .nullConst
  setInsert success

/-- Model of LlvmFunctionBuilder::LOAD_ATTR (ll_compile.cc:809-830). -/
def LOAD_ATTR (namesIndex : Int) : Build Unit := do
  let failure ← newBlock "LOAD_ATTR_failure"
  let success ← newBlock "LOAD_ATTR_success"
  let attrName ← LookupName namesIndex
  let obj ← Pop
  let result ← CallRt "PyObject_GetAttr" [obj, attrName]
  DecRef obj
  emit (.condbr (.isNull result) failure success)
  setInsert failure
  Return .nullConst
  setInsert success
  Push result

/-- Model of LlvmFunctionBuilder::STORE_ATTR (ll_compile.cc:832-855). -/
def STORE_ATTR (namesIndex : Int) : Build Unit := do
  let failure ← newBlock "STORE_ATTR_failure"
  let success ← newBlock "STORE_ATTR_success"
  let attrName ← LookupName namesIndex
  let obj ← Pop
  let value ← Pop
  let result ← CallRt "PyObject_SetAttr" [obj, attrName, value]
  DecRef value
  DecRef obj
  emit (.condbr (.isNonZero result) failure success)
  setInsert failure
  Return .nullConst
  setInsert success

/-- Model of LlvmFunctionBuilder::DELETE_ATTR (ll_compile.cc:857-880). -/
def DELETE_ATTR (namesIndex : Int) : Build Unit := do
  let failure ← newBlock "DELETE_ATTR_failure"
  let success ← newBlock "DELETE_ATTR_success"
  let attrName ← LookupName namesIndex
  let obj ← Pop
  let result ← CallRt "PyObject_SetAttr" [obj, attrName, .nullConst]
  DecRef obj
  emit (.condbr (.isNonZero result) failure success)
  setInsert failure
  Return .nullConst
  setInsert success

/-- Model of LlvmFunctionBuilder::CALL_FUNCTION (ll_compile.cc:882-912). -/
def CALL_FUNCTION (numArgs : Int) : Build Unit := do
  let failure ← newBlock "CALL_FUNCTION_failure"
  let success ← newBlock "CALL_FUNCTION_success"
  let tempSpAddr ← freshVal
  emit (.alloca "CALL_FUNCTION_stack_pointer_addr" tempSpAddr)
  let sp ← freshVal
  emit (.load .spAddr sp)
  emit (.store tempSpAddr sp)
  let result ← CallRt "_PyEval_CallFunction" [tempSpAddr, .intConst numArgs]
  let newSp ← freshVal
  emit (.load tempSpAddr newSp)
  emit (.store .spAddr newSp)
  emit (.condbr (.isNull result) failure success)
  setInsert failure
  Return .nullConst
  setInsert success
  Push result

/-- Model of LlvmFunctionBuilder::CALL_FUNCTION_VAR_KW (ll_compile.cc:914-934). -/
def CALL_FUNCTION_VAR_KW (numArgs : Int) : Build Unit := do
  let failure ← newBlock "CALL_FUNCTION_VAR_KW_failure"
  let success ← newBlock "CALL_FUNCTION_VAR_KW_success"
  let result ← CallRt "_PyEval_CallFunctionVarKw" [.spAddr, .intConst numArgs]
  emit (.condbr (.isNonZero result) failure success)
  setInsert failure
  Return .nullConst
  setInsert success

/-- Model of LlvmFunctionBuilder::JUMP_ABSOLUTE (ll_compile.cc:936-941). -/
def JUMP_ABSOLUTE (target _fallthrough : Nat) : Build Unit := do
  emit (.br target)

/-- Model of LlvmFunctionBuilder::POP_JUMP_IF_FALSE (ll_compile.cc:943-951). -/
def POP_JUMP_IF_FALSE (target fallthrough : Nat) : Build Unit := do
  let testValue ← Pop
  let isTrueV ← IsTrue testValue
  DecRef testValue
  emit (.condbr (.boolVal isTrueV) fallthrough target)

/-- Model of LlvmFunctionBuilder::POP_JUMP_IF_TRUE (ll_compile.cc:953-961). -/
def POP_JUMP_IF_TRUE (target fallthrough : Nat) : Build Unit := do
  let testValue ← Pop
  let isTrueV ← IsTrue testValue
  DecRef testValue
  emit (.condbr (.boolVal isTrueV) target fallthrough)

/-- Model of LlvmFunctionBuilder::JUMP_IF_FALSE_OR_POP (ll_compile.cc:963-978). -/
def JUMP_IF_FALSE_OR_POP (target fallthrough : Nat) : Build Unit := do
  let truePath ← newBlock "JUMP_IF_FALSE_OR_POP_pop"
  let testValue ← Pop
  Push testValue
  let isTrueV ← IsTrue testValue
  emit (.condbr (.boolVal isTrueV) truePath target)
  setInsert truePath
  let testValue2 ← Pop
  DecRef testValue2
  emit (.br fallthrough)

/-- Model of LlvmFunctionBuilder::JUMP_IF_TRUE_OR_POP (ll_compile.cc:980-994). -/
def JUMP_IF_TRUE_OR_POP (target fallthrough : Nat) : Build Unit := do
  let falsePath ← newBlock "JUMP_IF_TRUE_OR_POP_pop"
  let testValue ← Pop
  Push testValue
  let isTrueV ← IsTrue testValue
  emit (.condbr (.boolVal isTrueV) target falsePath)
  setInsert falsePath
  let testValue2 ← Pop
  DecRef testValue2
  emit (.br fallthrough)

/-- Model of LlvmFunctionBuilder::STORE_FAST (ll_compile.cc:996-1000). -/
def STORE_FAST (index : Int) : Build Unit := do
  let v ← Pop
  SetLocal index v

/-- Model of LlvmFunctionBuilder::DELETE_FAST (ll_compile.cc:1002-1007). -/
def DELETE_FAST (index : Int) : Build Unit :=
  SetLocal index .nullConst

/-- Model of LlvmFunctionBuilder::SETUP_LOOP (ll_compile.cc:1009-1015): a
deliberate no-op pending the exception story. -/
def SETUP_LOOP (_target _fallthrough : Nat) : Build Unit := Build.pure ()

/-- Model of LlvmFunctionBuilder::GET_ITER (ll_compile.cc:1017-1034). -/
def GET_ITER : Build Unit := do
  let obj ← Pop
  let iter ← CallRt "PyObject_GetIter" [obj]
  DecRef obj
  let gotIter ← newBlock "got_iter"
  let wasException ← newBlock "was_exception"
  emit (.condbr (.isNull iter) wasException gotIter)
  setInsert wasException
  Return .nullConst
  setInsert gotIter
  Push iter

/-- Model of LlvmFunctionBuilder::FOR_ITER (ll_compile.cc:1036-1086). -/
def FOR_ITER (target _fallthrough : Nat) : Build Unit := do
  let iter ← Pop
  emit (.instr "load_iter_type")
  emit (.instr "load_tp_iternext")
  let next ← freshVal
  emit (.callIndirect "iternext" [iter] next)
  let gotNext ← newBlock "got_next"
  let nextNull ← newBlock "next_null"
  emit (.condbr (.isNull next) nextNull gotNext)
  setInsert nextNull
  let errOccurred ← CallRt "PyErr_Occurred" []
  let iterEnded ← newBlock "iter_ended"
  let exception ← newBlock "exception"
  emit (.condbr (.isNull errOccurred) iterEnded exception)
  setInsert exception
  let excStopIteration ← freshVal
  emit (.load (.global "PyExc_StopIteration") excStopIteration)
  let wasStopiteration ← CallRt "PyErr_ExceptionMatches" [excStopIteration]
  let clearErr ← newBlock "clear_err"
  let propagate ← newBlock "propagate"
  emit (.condbr (.isNonZero wasStopiteration) clearErr propagate)
  setInsert propagate
  DecRef iter
  Return .nullConst
  setInsert clearErr
  CallRtVoid "PyErr_Clear" []
  emit (.br iterEnded)
  setInsert iterEnded
  DecRef iter
  emit (.br target)
  setInsert gotNext
  Push iter
  Push next

/-- Model of LlvmFunctionBuilder::POP_BLOCK (ll_compile.cc:1088-1093): a
deliberate no-op pending the exception story. -/
def POP_BLOCK : Build Unit := Build.pure ()

/-- Model of LlvmFunctionBuilder::RETURN_VALUE (ll_compile.cc:1095-1100). -/
def RETURN_VALUE : Build Unit := do
  let retval ← Pop
  Return retval

/-- Model of LlvmFunctionBuilder::DoRaise (ll_compile.cc:1102-1120). -/
def DoRaise (excType excInst excTb : Val) : Build Unit := do
  let raiseBlock ← newBlock "raise_block"
  let deadCode ← newBlock "dead_code"
  emit (.condbr (.boolVal (.intConst 1)) raiseBlock deadCode)
  setInsert raiseBlock
  CallRtVoid "_PyEval_DoRaise" [excType, excInst, excTb]
  Return .nullConst
  setInsert deadCode

/-- Model of LlvmFunctionBuilder::RAISE_VARARGS_ZERO (ll_compile.cc:1122-1132). -/
def RAISE_VARARGS_ZERO : Build Unit :=
  DoRaise .nullConst .nullConst .nullConst

/-- Model of LlvmFunctionBuilder::RAISE_VARARGS_ONE (ll_compile.cc:1134-1143). -/
def RAISE_VARARGS_ONE : Build Unit := do
  let excType ← Pop
  DoRaise excType .nullConst .nullConst

/-- Model of LlvmFunctionBuilder::RAISE_VARARGS_TWO (ll_compile.cc:1145-1153). -/
def RAISE_VARARGS_TWO : Build Unit := do
  let excInst ← Pop
  let excType ← Pop
  DoRaise excType excInst .nullConst

/-- Model of LlvmFunctionBuilder::RAISE_VARARGS_THREE (ll_compile.cc:1155-1162). -/
def RAISE_VARARGS_THREE : Build Unit := do
  let excTb ← Pop
  let excInst ← Pop
  let excType ← Pop
  DoRaise excType excInst excTb

/-- Model of LlvmFunctionBuilder::STORE_SUBSCR (ll_compile.cc:1164-1188). -/
def STORE_SUBSCR : Build Unit := do
  let failure ← newBlock "STORE_SUBSCR_failure"
  let success ← newBlock "STORE_SUBSCR_success"
  let key ← Pop
  let obj ← Pop
  let value ← Pop
  let result ← CallRt "PyObject_SetItem" [obj, key, value]
  DecRef value
  DecRef obj
  DecRef key
  emit (.condbr (.isNonZero result) failure success)
  setInsert failure
  Return .nullConst
  setInsert success

/-- Model of LlvmFunctionBuilder::GenericBinOp (ll_compile.cc:1190-1210),
the common code for almost all binary operations. -/
def GenericBinOp (apifunc : String) : Build Unit := do
  let failure ← newBlock "binop_failure"
  let success ← newBlock "binop_success"
  let rhs ← Pop
  let lhs ← Pop
  let result ← CallRt apifunc [lhs, rhs]
  DecRef lhs
  DecRef rhs
  emit (.condbr (.isNull result) failure success)
  setInsert failure
  Return .nullConst
  setInsert success
  Push result

def BINARY_ADD : Build Unit := GenericBinOp "PyNumber_Add"
def BINARY_SUBTRACT : Build Unit := GenericBinOp "PyNumber_Subtract"
def BINARY_MULTIPLY : Build Unit := GenericBinOp "PyNumber_Multiply"
def BINARY_TRUE_DIVIDE : Build Unit := GenericBinOp "PyNumber_TrueDivide"
def BINARY_DIVIDE : Build Unit := GenericBinOp "PyNumber_Divide"
def BINARY_MODULO : Build Unit := GenericBinOp "PyNumber_Remainder"
def BINARY_LSHIFT : Build Unit := GenericBinOp "PyNumber_Lshift"
def BINARY_RSHIFT : Build Unit := GenericBinOp "PyNumber_Rshift"
def BINARY_OR : Build Unit := GenericBinOp "PyNumber_Or"
def BINARY_XOR : Build Unit := GenericBinOp "PyNumber_Xor"
def BINARY_AND : Build Unit := GenericBinOp "PyNumber_And"
def BINARY_FLOOR_DIVIDE : Build Unit := GenericBinOp "PyNumber_FloorDivide"
def BINARY_SUBSCR : Build Unit := GenericBinOp "PyObject_GetItem"
def INPLACE_ADD : Build Unit := GenericBinOp "PyNumber_InPlaceAdd"
def INPLACE_SUBTRACT : Build Unit := GenericBinOp "PyNumber_InPlaceSubtract"
def INPLACE_MULTIPLY : Build Unit := GenericBinOp "PyNumber_InPlaceMultiply"
def INPLACE_TRUE_DIVIDE : Build Unit := GenericBinOp "PyNumber_InPlaceTrueDivide"
def INPLACE_DIVIDE : Build Unit := GenericBinOp "PyNumber_InPlaceDivide"
def INPLACE_MODULO : Build Unit := GenericBinOp "PyNumber_InPlaceRemainder"
def INPLACE_LSHIFT : Build Unit := GenericBinOp "PyNumber_InPlaceLshift"
def INPLACE_RSHIFT : Build Unit := GenericBinOp "PyNumber_InPlaceRshift"
def INPLACE_OR : Build Unit := GenericBinOp "PyNumber_InPlaceOr"
def INPLACE_XOR : Build Unit := GenericBinOp "PyNumber_InPlaceXor"
def INPLACE_AND : Build Unit := GenericBinOp "PyNumber_InPlaceAnd"
def INPLACE_FLOOR_DIVIDE : Build Unit := GenericBinOp "PyNumber_InPlaceFloorDivide"

/-- Model of LlvmFunctionBuilder::GenericPowOp (ll_compile.cc:1248-1271): the
power operations pass Py_None as the fixed third argument. -/
def GenericPowOp (apifunc : String) : Build Unit := do
  let failure ← newBlock "powop_failure"
  let success ← newBlock "powop_success"
  let rhs ← Pop
  let lhs ← Pop
  let result ← CallRt apifunc [lhs, rhs, .global "_Py_NoneStruct"]
  DecRef lhs
  DecRef rhs
  emit (.condbr (.isNull result) failure success)
  setInsert failure
  Return .nullConst
  setInsert success
  Push result

def BINARY_POWER : Build Unit := GenericPowOp "PyNumber_Power"
def INPLACE_POWER : Build Unit := GenericPowOp "PyNumber_InPlacePower"

/-- Model of LlvmFunctionBuilder::DELETE_SUBSCR (ll_compile.cc:1285-1306). -/
def DELETE_SUBSCR : Build Unit := do
  let failure ← newBlock "DELETE_SUBSCR_failure"
  let success ← newBlock "DELETE_SUBSCR_success"
  let key ← Pop
  let obj ← Pop
  let result ← CallRt "PyObject_DelItem" [obj, key]
  DecRef obj
  DecRef key
  emit (.condbr (.isNonZero result) failure success)
  setInsert failure
  Return .nullConst
  setInsert success

/-- Model of LlvmFunctionBuilder::POP_TOP (ll_compile.cc:1308-1313). -/
def POP_TOP : Build Unit := do
  let top ← Pop
  DecRef top

/-- Model of LlvmFunctionBuilder::DUP_TOP (ll_compile.cc:1315-1322). -/
def DUP_TOP : Build Unit := do
  let first ← Pop
  IncRef first
  Push first
  Push first

/-- Model of LlvmFunctionBuilder::DUP_TOP_TWO (ll_compile.cc:1324-1335). -/
def DUP_TOP_TWO : Build Unit := do
  let first ← Pop
  let second ← Pop
  IncRef first
  IncRef second
  Push second
  Push first
  Push second
  Push first

/-- Model of LlvmFunctionBuilder::DUP_TOP_THREE (ll_compile.cc:1337-1353). -/
def DUP_TOP_THREE : Build Unit := do
  let first ← Pop
  let second ← Pop
  let third ← Pop
  IncRef first
  IncRef second
  IncRef third
  Push third
  Push second
  Push first
  Push third
  Push second
  Push first

/-- Model of LlvmFunctionBuilder::ROT_TWO (ll_compile.cc:1355-1363). -/
def ROT_TWO : Build Unit := do
  let first ← Pop
  let second ← Pop
  Push first
  Push second

/-- Model of LlvmFunctionBuilder::ROT_THREE (ll_compile.cc:1365-1374). -/
def ROT_THREE : Build Unit := do
  let first ← Pop
  let second ← Pop
  let third ← Pop
  Push first
  Push third
  Push second

/-- Model of LlvmFunctionBuilder::ROT_FOUR (ll_compile.cc:1376-1388). -/
def ROT_FOUR : Build Unit := do
  let first ← Pop
  let second ← Pop
  let third ← Pop
  let fourth ← Pop
  Push first
  Push fourth
  Push third
  Push second

/-- Model of LlvmFunctionBuilder::LIST_APPEND (ll_compile.cc:1390-1411). -/
def LIST_APPEND : Build Unit := do
  let failure ← newBlock "LIST_APPEND_failure"
  let success ← newBlock "LIST_APPEND_success"
  let item ← Pop
  let listobj ← Pop
  let result ← CallRt "PyList_Append" [listobj, item]
  DecRef listobj
  DecRef item
  emit (.condbr (.isNonZero result) failure success)
  setInsert failure
  Return .nullConst
  setInsert success

/-- Model of LlvmFunctionBuilder::STORE_MAP (ll_compile.cc:1413-1435). -/
def STORE_MAP : Build Unit := do
  let failure ← newBlock "STORE_MAP_failure"
  let success ← newBlock "STORE_MAP_success"
  let key ← Pop
  let value ← Pop
  let dict ← Pop
  Push dict
  let result ← CallRt "PyDict_SetItem" [dict, key, value]
  DecRef value
  DecRef key
  emit (.condbr (.isNonZero result) failure success)
  setInsert failure
  Return .nullConst
  setInsert success

/-- Model of LlvmFunctionBuilder::List_SET_ITEM (ll_compile.cc:1437-1446):
direct store into the list object's item array. -/
def List_SET_ITEM (lst idx item : Val) : Build Unit := do
  let listItems ← freshVal
  emit (.load lst listItems)
  let itemslot ← freshVal
  emit (.gep listItems idx itemslot)
  emit (.store itemslot item)

/-- Model of LlvmFunctionBuilder::Tuple_SET_ITEM (ll_compile.cc:1448-1462):
direct store into the tuple object's inline item array. -/
def Tuple_SET_ITEM (tup idx item : Val) : Build Unit := do
  let itemslot ← freshVal
  emit (.gep tup idx itemslot)
  emit (.store itemslot item)

/-- Model of LlvmFunctionBuilder::SequenceBuilder (ll_compile.cc:1464-1504). -/
def SequenceBuilder (size : Int) (createname : String)
    (method : Val → Val → Val → Build Unit) : Build Unit := do
  let failure ← newBlock "SeqBuild_failure"
  let loopStart ← newBlock "SeqBuild_loop_start"
  let loopBody ← newBlock "SeqBuild_loop_body"
  let endB ← newBlock "SeqBuild_end"
  let seq ← CallRt createname [.intConst size]
  emit (.condbr (.isNull seq) failure loopStart)
  setInsert failure
  Return .nullConst
  setInsert loopStart
  let phiV ← freshVal
  emit (.phi phiV)
  let doneV ← freshVal
  emit (.icmp "sle" phiV (.intConst 0) doneV)
  emit (.condbr (.boolVal doneV) endB loopBody)
  setInsert loopBody
  let item ← Pop
  let nextval ← freshVal
  emit (.instr "sub_loop_var")
  method seq nextval item
  emit (.br loopStart)
  setInsert endB
  Push seq

/-- Model of LlvmFunctionBuilder::BUILD_LIST (ll_compile.cc:1506-1511). -/
def BUILD_LIST (size : Int) : Build Unit :=
  SequenceBuilder size "PyList_New" List_SET_ITEM

/-- Model of LlvmFunctionBuilder::BUILD_TUPLE (ll_compile.cc:1513-1518). -/
def BUILD_TUPLE (size : Int) : Build Unit :=
  SequenceBuilder size "PyTuple_New" Tuple_SET_ITEM

/-- Model of LlvmFunctionBuilder::GenericUnaryOp (ll_compile.cc:1520-1537). -/
def GenericUnaryOp (apifunc : String) : Build Unit := do
  let failure ← newBlock "unaryop_failure"
  let success ← newBlock "unaryop_success"
  let value ← Pop
  let result ← CallRt apifunc [value]
  DecRef value
  emit (.condbr (.isNull result) failure success)
  setInsert failure
  Return .nullConst
  setInsert success
  Push result

def UNARY_CONVERT : Build Unit := GenericUnaryOp "PyObject_Repr"
def UNARY_INVERT : Build Unit := GenericUnaryOp "PyNumber_Invert"
def UNARY_POSITIVE : Build Unit := GenericUnaryOp "PyNumber_Positive"
def UNARY_NEGATIVE : Build Unit := GenericUnaryOp "PyNumber_Negative"

/-- Model of LlvmFunctionBuilder::UNARY_NOT (ll_compile.cc:1553-1582). -/
def UNARY_NOT : Build Unit := do
  let success ← newBlock "UNARY_NOT_success"
  let failure ← newBlock "UNARY_NOT_failure"
  let value ← Pop
  let result ← CallRt "PyObject_IsTrue" [value]
  let iserr ← freshVal
  emit (.icmp "slt" result (.intConst 0) iserr)
  DecRef value
  emit (.condbr (.boolVal iserr) failure success)
  setInsert failure
  Return .nullConst
  setInsert success
  let istrue ← freshVal
  emit (.icmp "sgt" result (.intConst 0) istrue)
  let retval ← freshVal
  emit (.select istrue (.global "_Py_ZeroStruct") (.global "_Py_TrueStruct") retval)
  IncRef retval
  Push retval

/-- Model of LlvmFunctionBuilder::ContainerContains (ll_compile.cc:1584-1608). -/
def ContainerContains (container item : Val) : Build Val := do
  let err ← newBlock "ContainerContains_err"
  let nonErr ← newBlock "ContainerContains_non_err"
  let result ← CallRt "PySequence_Contains" [container, item]
  DecRef item
  DecRef container
  let lt ← freshVal
  emit (.icmp "slt" result (.intConst 0) lt)
  emit (.condbr (.boolVal lt) err nonErr)
  setInsert err
  Return .nullConst
  setInsert nonErr
  let boolResult ← freshVal
  emit (.icmp "sgt" result (.intConst 0) boolResult)
  Build.pure boolResult

/-- Model of LlvmFunctionBuilder::RichCompare (ll_compile.cc:1610-1632). -/
def RichCompare (lhs rhs : Val) (cmpOp : Int) : Build Unit := do
  let failure ← newBlock "RichCompare_failure"
  let success ← newBlock "RichCompare_success"
  let result ← CallRt "PyObject_RichCompare" [lhs, rhs, .intConst cmpOp]
  DecRef lhs
  DecRef rhs
  emit (.condbr (.isNull result) failure success)
  setInsert failure
  Return .nullConst
  setInsert success
  Push result

/-- Model of LlvmFunctionBuilder::ExceptionMatches (ll_compile.cc:1634-1659). -/
def ExceptionMatches (exc excType : Val) : Build Val := do
  let err ← newBlock "ExceptionMatches_err"
  let noErr ← newBlock "ExceptionMatches_no_err"
  let result ← CallRt "_PyEval_CheckedExceptionMatches" [exc, excType]
  DecRef excType
  DecRef exc
  emit (.condbr (.isNull result) err noErr)
  setInsert err
  Return .nullConst
  setInsert noErr
  let boolResult ← freshVal
  emit (.icmp "sgt" result (.intConst 0) boolResult)
  Build.pure boolResult

/-- Comparison operators of COMPARE_OP, mirroring the cmp_op enum of the
interpreter (PyCmp_LT = 0 through PyCmp_EXC_MATCH = 10). -/
inductive PyCmpOp where
  | lt | le | eq | ne | gt | ge | inOp | notIn | isOp | isNot | excMatch
deriving DecidableEq

def PyCmpOp.toInt : PyCmpOp → Int
  | .lt => 0
  | .le => 1
  | .eq => 2
  | .ne => 3
  | .gt => 4
  | .ge => 5
  | .inOp => 6
  | .notIn => 7
  | .isOp => 8
  | .isNot => 9
  | .excMatch => 10

/-- The common tail of the non-richcompare COMPARE_OP cases
(ll_compile.cc:1704-1710): box the raw boolean into the singleton True/False
objects with one ownership increment and push it. -/
def BoxBoolAndPush (result : Val) : Build Unit := do
  let value ← freshVal
  emit (.select result (.global "_Py_TrueStruct") (.global "_Py_ZeroStruct") value)
  IncRef value
  Push value

/-- Model of LlvmFunctionBuilder::COMPARE_OP (ll_compile.cc:1661-1711).  The
source switch falls through to the common select-and-push tail for the
non-richcompare cases and returns early for the six ordering comparisons;
here the tail is the shared helper BoxBoolAndPush. -/
def COMPARE_OP (cmpOp : PyCmpOp) : Build Unit := do
  let rhs ← Pop
  let lhs ← Pop
  match cmpOp with
  | .isOp => do
      let result ← freshVal
      emit (.icmp "eq" lhs rhs result)
      DecRef lhs
      DecRef rhs
      BoxBoolAndPush result
  | .isNot => do
      let result ← freshVal
      emit (.icmp "ne" lhs rhs result)
      DecRef lhs
      DecRef rhs
      BoxBoolAndPush result
  | .inOp => do
      let result ← ContainerContains rhs lhs
      BoxBoolAndPush result
  | .notIn => do
      let invertedResult ← ContainerContains rhs lhs
      let result ← freshVal
      emit (.icmp "eq" invertedResult (.intConst 0) result)
      BoxBoolAndPush result
  | .excMatch => do
      let result ← ExceptionMatches lhs rhs
      BoxBoolAndPush result
  | .eq => RichCompare lhs rhs PyCmpOp.eq.toInt
  | .ne => RichCompare lhs rhs PyCmpOp.ne.toInt
  | .lt => RichCompare lhs rhs PyCmpOp.lt.toInt
  | .le => RichCompare lhs rhs PyCmpOp.le.toInt
  | .gt => RichCompare lhs rhs PyCmpOp.gt.toInt
  | .ge => RichCompare lhs rhs PyCmpOp.ge.toInt

/-- Model of LlvmFunctionBuilder::BUILD_MAP (ll_compile.cc:1713-1731). -/
def BUILD_MAP (size : Int) : Build Unit := do
  let failure ← newBlock "BUILD_MAP_failure"
  let success ← newBlock "BUILD_MAP_success"
  let result ← CallRt "_PyDict_NewPresized" [.intConst size]
  emit (.condbr (.isNull result) failure success)
  setInsert failure
  Return .nullConst
  setInsert success
  Push result

/-- Model of LlvmFunctionBuilder::BuildSlice (ll_compile.cc:1733-1754). -/
def BuildSlice (start stop step : Val) : Build Unit := do
  let failure ← newBlock "BuildSlice_failure"
  let success ← newBlock "BuildSlice_success"
  let result ← CallRt "PySlice_New" [start, stop, step]
  DecRef start
  DecRef stop
  XDecRef step
  emit (.condbr (.isNull result) failure success)
  setInsert failure
  Return .nullConst
  setInsert success
  Push result

/-- Model of LlvmFunctionBuilder::BUILD_SLICE_TWO (ll_compile.cc:1756-1764). -/
def BUILD_SLICE_TWO : Build Unit := do
  let stop ← Pop
  let start ← Pop
  BuildSlice start stop .nullConst

/-- Model of LlvmFunctionBuilder::BUILD_SLICE_THREE (ll_compile.cc:1766-1773). -/
def BUILD_SLICE_THREE : Build Unit := do
  let step ← Pop
  let stop ← Pop
  let start ← Pop
  BuildSlice start stop step

/-- Model of LlvmFunctionBuilder::ApplySlice (ll_compile.cc:1775-1797). -/
def ApplySlice (seq start stop : Val) : Build Unit := do
  let failure ← newBlock "ApplySlice_failure"
  let success ← newBlock "ApplySlice_success"
  let result ← CallRt "_PyEval_ApplySlice" [seq, start, stop]
  XDecRef stop
  XDecRef start
  DecRef seq
  emit (.condbr (.isNull result) failure success)
  setInsert failure
  Return .nullConst
  setInsert success
  Push result

/-- Model of LlvmFunctionBuilder::SLICE_BOTH (ll_compile.cc:1799-1806). -/
def SLICE_BOTH : Build Unit := do
  let stop ← Pop
  let start ← Pop
  let seq ← Pop
  ApplySlice seq start stop

/-- Model of LlvmFunctionBuilder::SLICE_LEFT (ll_compile.cc:1808-1816). -/
def SLICE_LEFT : Build Unit := do
  let start ← Pop
  let seq ← Pop
  ApplySlice seq start .nullConst

/-- Model of LlvmFunctionBuilder::SLICE_RIGHT (ll_compile.cc:1818-1826). -/
def SLICE_RIGHT : Build Unit := do
  let stop ← Pop
  let seq ← Pop
  ApplySlice seq .nullConst stop

/-- Model of LlvmFunctionBuilder::SLICE_NONE (ll_compile.cc:1828-1837). -/
def SLICE_NONE : Build Unit := do
  let seq ← Pop
  ApplySlice seq .nullConst .nullConst

/-- Model of LlvmFunctionBuilder::AssignSlice (ll_compile.cc:1839-1863). -/
def AssignSlice (seq start stop source : Val) : Build Unit := do
  let failure ← newBlock "AssignSlice_failure"
  let success ← newBlock "AssignSlice_success"
  let result ← CallRt "_PyEval_AssignSlice" [seq, start, stop, source]
  XDecRef source
  XDecRef stop
  XDecRef start
  DecRef seq
  emit (.condbr (.isNonZero result) failure success)
  setInsert failure
  Return .nullConst
  setInsert success

/-- Model of LlvmFunctionBuilder::STORE_SLICE_BOTH (ll_compile.cc:1865-1873). -/
def STORE_SLICE_BOTH : Build Unit := do
  let stop ← Pop
  let start ← Pop
  let seq ← Pop
  let source ← Pop
  AssignSlice seq start stop source

/-- Model of LlvmFunctionBuilder::STORE_SLICE_LEFT (ll_compile.cc:1875-1884). -/
def STORE_SLICE_LEFT : Build Unit := do
  let start ← Pop
  let seq ← Pop
  let source ← Pop
  AssignSlice seq start .nullConst source

/-- Model of LlvmFunctionBuilder::STORE_SLICE_RIGHT (ll_compile.cc:1886-1895). -/
def STORE_SLICE_RIGHT : Build Unit := do
  let stop ← Pop
  let seq ← Pop
  let source ← Pop
  AssignSlice seq .nullConst stop source

/-- Model of LlvmFunctionBuilder::STORE_SLICE_NONE (ll_compile.cc:1897-1907). -/
def STORE_SLICE_NONE : Build Unit := do
  let seq ← Pop
  let source ← Pop
  AssignSlice seq .nullConst .nullConst source

/-- Model of LlvmFunctionBuilder::DELETE_SLICE_BOTH (ll_compile.cc:1909-1918). -/
def DELETE_SLICE_BOTH : Build Unit := do
  let stop ← Pop
  let start ← Pop
  let seq ← Pop
  AssignSlice seq start stop .nullConst

/-- Model of LlvmFunctionBuilder::DELETE_SLICE_LEFT (ll_compile.cc:1920-1930). -/
def DELETE_SLICE_LEFT : Build Unit := do
  let start ← Pop
  let seq ← Pop
  AssignSlice seq start .nullConst .nullConst

/-- Model of LlvmFunctionBuilder::DELETE_SLICE_RIGHT (ll_compile.cc:1932-1942). -/
def DELETE_SLICE_RIGHT : Build Unit := do
  let stop ← Pop
  let seq ← Pop
  AssignSlice seq .nullConst stop .nullConst

/-- Model of LlvmFunctionBuilder::DELETE_SLICE_NONE (ll_compile.cc:1944-1955). -/
def DELETE_SLICE_NONE : Build Unit := do
  let seq ← Pop
  AssignSlice seq .nullConst .nullConst .nullConst

/-- Model of LlvmFunctionBuilder::UNPACK_SEQUENCE (ll_compile.cc:1957-1995):
the unpack entry point writes directly into stack memory beyond the current
stack pointer; the stored stack pointer advances by size only on success,
and success is reported as nonzero, opposite to the other entry points. -/
def UNPACK_SEQUENCE (size : Int) : Build Unit := do
  let failure ← newBlock "UNPACK_SEQUENCE_failure"
  let success ← newBlock "UNPACK_SEQUENCE_success"
  let iterable ← Pop
  let stackPointer ← freshVal
  emit (.load .spAddr stackPointer)
  let dest ← freshVal
  emit (.gep stackPointer (.intConst size) dest)
  let result ← CallRt "_PyEval_UnpackIterable" [iterable, .intConst size, dest]
  DecRef iterable
  emit (.condbr (.isNonZero result) success failure)
  setInsert failure
  Return .nullConst
  setInsert success
  let newStackPointer ← freshVal
  emit (.gep stackPointer (.intConst size) newStackPointer)
  emit (.store .spAddr newStackPointer)

/-! Relocation: every lowering rule reads the builder state only through the
fresh-block counter, the fresh-value counter and the insertion block, so its
emission from an arbitrary state is the emission from a canonical state with
blocks and values renamed.  Canonical runs start at block 9 with fresh blocks
from 10 and fresh values from 0; block parameters (jump targets) are passed
as the sentinels 100, 101 and renamed to the real targets. -/

def canonState : BState := { nextBlock := 10, nextVal := 0, cur := 9, log := [] }

def relocBlk (c n : Nat) (targs : List Nat) (b : Nat) : Nat :=
  if b < 9 then b
  else if b = 9 then c
  else if b < 100 then n + (b - 10)
  else targs.getD (b - 100) 0

def relocVal (k : Nat) : Val → Val
  | .v m => .v (k + m)
  | x => x

def relocCond (k : Nat) : Cond → Cond
  | .isNull a => .isNull (relocVal k a)
  | .isNonZero a => .isNonZero (relocVal k a)
  | .boolVal a => .boolVal (relocVal k a)

def relocInstr (c n k : Nat) (targs : List Nat) : Instr → Instr
  | .instr s => .instr s
  | .alloca name dst => .alloca name (relocVal k dst)
  | .load a dst => .load (relocVal k a) (relocVal k dst)
  | .store a v => .store (relocVal k a) (relocVal k v)
  | .gep b o dst => .gep (relocVal k b) (relocVal k o) (relocVal k dst)
  | .icmp kind a b dst => .icmp kind (relocVal k a) (relocVal k b) (relocVal k dst)
  | .select c0 t f dst =>
      .select (relocVal k c0) (relocVal k t) (relocVal k f) (relocVal k dst)
  | .phi dst => .phi (relocVal k dst)
  | .pop dst => .pop (relocVal k dst)
  | .push v => .push (relocVal k v)
  | .incRef a => .incRef (relocVal k a)
  | .decRefDec a nc => .decRefDec (relocVal k a) (relocVal k nc)
  | .callRt f args dst => .callRt f (args.map (relocVal k)) (relocVal k dst)
  | .callRtVoid f args => .callRtVoid f (args.map (relocVal k))
  | .callIndirect d args dst => .callIndirect d (args.map (relocVal k)) (relocVal k dst)
  | .ret a => .ret (relocVal k a)
  | .br t => .br (relocBlk c n targs t)
  | .condbr c0 t f => .condbr (relocCond k c0) (relocBlk c n targs t) (relocBlk c n targs f)

def relocEntry (c n k : Nat) (targs : List Nat) (e : Nat × Instr) : Nat × Instr :=
  (relocBlk c n targs e.1, relocInstr c n k targs e.2)

/-- Transport of a canonical final state to the final state of the same rule
run from an arbitrary state s. -/
def relocState (s : BState) (targs : List Nat) (c : BState) : BState :=
  { nextBlock := s.nextBlock + (c.nextBlock - 10),
    nextVal := s.nextVal + c.nextVal,
    cur := relocBlk s.cur s.nextBlock targs c.cur,
    log := c.log.map (relocEntry s.cur s.nextBlock s.nextVal targs) ++ s.log }

theorem GenericBinOp_reloc (f : String) (s : BState) :
    (GenericBinOp f s).2 = relocState s [] ((GenericBinOp f) canonState).2 := rfl

/-! Structural predicates on emission logs, and their behavior under
relocation and concatenation.  The log holds the newest emission first, so a
block body is read newest-first through blockRev; blockInstrs reverses it
into execution order for the final statements. -/

/-- Entries of one block, newest emission first. -/
def blockRev (log : List (Nat × Instr)) (b : Nat) : List Instr :=
  (log.filter (fun p => p.1 == b)).map (fun p => p.2)

theorem blockInstrs_eq_reverse (log : List (Nat × Instr)) (b : Nat) :
    blockInstrs log b = (blockRev log b).reverse := rfl

/-- True when no instruction of the list is a terminator. -/
def noTermB (l : List Instr) : Bool := l.all (fun i => !i.isTerminator)

/-- Terminators only in final (= newest, head) position. -/
def tolRevB : List Instr → Bool
  | [] => true
  | _ :: rest => noTermB rest

/-- The newest instruction of the list is a terminator. -/
def headTermB : List Instr → Bool
  | [] => false
  | i :: _ => i.isTerminator

theorem blockTerminated_eq (log : List (Nat × Instr)) (b : Nat) :
    blockTerminated log b = headTermB (blockRev log b) := by
  unfold blockTerminated blockRev
  induction log with
  | nil => rfl
  | cons e rest ih =>
      by_cases h : e.1 == b
      · simp [List.find?, List.filter_cons, h, headTermB]
      · simp only [List.find?, List.filter_cons, h]
        simpa using ih

/-- True when the entry is a return instruction. -/
def isRetE (e : Nat × Instr) : Bool :=
  match e.2 with
  | .ret _ => true
  | _ => false

/-- True when the entry is an unconditional branch to the unified return
block. -/
def isBrOne (e : Nat × Instr) : Bool :=
  match e.2 with
  | .br t => t == returnBlockId
  | _ => false

/-- True when the entry stores into the shared return-value slot. -/
def isRetvalStore (e : Nat × Instr) : Bool :=
  match e.2 with
  | .store a _ => a == Val.retvalAddr
  | _ => false

/-- Every branch to the unified return block is immediately preceded in
emission order (= followed in the newest-first log) by a store into the
shared return-value slot tagged with the same block. -/
def guardRev : List (Nat × Instr) → Bool
  | [] => true
  | e :: rest =>
      (if isBrOne e then
        match rest.head? with
        | some p => isRetvalStore p && (p.1 == e.1)
        | none => false
      else true) && guardRev rest

theorem blockRev_nil (b : Nat) : blockRev [] b = [] := rfl

theorem blockRev_cons (e : Nat × Instr) (l : List (Nat × Instr)) (b : Nat) :
    blockRev (e :: l) b =
      if e.1 == b then e.2 :: blockRev l b else blockRev l b := by
  by_cases h : e.1 == b <;> simp [blockRev, List.filter_cons, h]

theorem blockRev_append (l1 l2 : List (Nat × Instr)) (b : Nat) :
    blockRev (l1 ++ l2) b = blockRev l1 b ++ blockRev l2 b := by
  simp [blockRev, List.filter_append]

theorem getD_mem_or (l : List Nat) (i : Nat) : l.getD i 0 ∈ l ∨ l.getD i 0 = 0 := by
  induction l generalizing i with
  | nil => right; rfl
  | cons a l ih =>
      cases i with
      | zero => left; simp [List.getD]
      | succ j =>
          rcases ih j with h | h
          · left; simpa [List.getD] using Or.inr h
          · right; simpa [List.getD] using h

theorem relocBlk_nine (c n : Nat) (ts : List Nat) : relocBlk c n ts 9 = c := rfl

theorem relocBlk_fresh (c n : Nat) (ts : List Nat) (b : Nat)
    (h1 : 10 ≤ b) (h2 : b < 100) : relocBlk c n ts b = n + (b - 10) := by
  unfold relocBlk
  rw [if_neg (by omega), if_neg (by omega), if_pos h2]

theorem relocBlk_eq_one_iff (c n : Nat) (ts : List Nat) (b : Nat)
    (hc : 9 ≤ c) (hn : 9 ≤ n) (hts : ∀ x ∈ ts, 9 ≤ x) :
    (relocBlk c n ts b = 1) ↔ b = 1 := by
  unfold relocBlk
  split_ifs with h1 h2 h3
  · exact Iff.rfl
  · omega
  · omega
  · rcases getD_mem_or ts (b - 100) with h | h
    · have := hts _ h; omega
    · omega

theorem relocBlk_tag_inj (c n : Nat) (ts : List Nat) (b0 b1 : Nat)
    (hc : 9 ≤ c) (hcn : c < n)
    (h0 : b0 = 9 ∨ (10 ≤ b0 ∧ b0 < 100)) (h1 : b1 = 9 ∨ (10 ≤ b1 ∧ b1 < 100)) :
    (relocBlk c n ts b0 = relocBlk c n ts b1) ↔ b0 = b1 := by
  rcases h0 with rfl | ⟨ha, hb⟩ <;> rcases h1 with rfl | ⟨hd, he⟩
  · simp
  · rw [relocBlk_nine, relocBlk_fresh c n ts b1 hd he]; omega
  · rw [relocBlk_nine, relocBlk_fresh c n ts b0 ha hb]; omega
  · rw [relocBlk_fresh c n ts b0 ha hb, relocBlk_fresh c n ts b1 hd he]; omega

theorem isRetE_relocEntry (c n k : Nat) (ts : List Nat) (e : Nat × Instr) :
    isRetE (relocEntry c n k ts e) = isRetE e := by
  rcases e with ⟨b, i⟩
  cases i <;> rfl

theorem isBrOne_relocEntry (c n k : Nat) (ts : List Nat) (e : Nat × Instr)
    (hc : 9 ≤ c) (hn : 9 ≤ n) (hts : ∀ x ∈ ts, 9 ≤ x) :
    isBrOne (relocEntry c n k ts e) = isBrOne e := by
  rcases e with ⟨b, i⟩
  cases i <;> simp [isBrOne, relocEntry, relocInstr, returnBlockId]
  case br t =>
    rcases eq_or_ne t 1 with rfl | h
    · simp [relocBlk]
    · simp [h, (relocBlk_eq_one_iff c n ts t hc hn hts).not.mpr h]

theorem relocVal_eq_retvalAddr (k : Nat) (a : Val) :
    (relocVal k a = Val.retvalAddr) ↔ a = Val.retvalAddr := by
  cases a <;> simp [relocVal]

theorem isRetvalStore_relocEntry (c n k : Nat) (ts : List Nat) (e : Nat × Instr) :
    isRetvalStore (relocEntry c n k ts e) = isRetvalStore e := by
  rcases e with ⟨b, i⟩
  cases i <;> simp [isRetvalStore, relocEntry, relocInstr]
  case store a v => simp [relocVal_eq_retvalAddr]

theorem isTerminator_relocInstr (c n k : Nat) (ts : List Nat) (i : Instr) :
    (relocInstr c n k ts i).isTerminator = i.isTerminator := by
  cases i <;> rfl

theorem noTermB_map_reloc (c n k : Nat) (ts : List Nat) (l : List Instr) :
    noTermB (l.map (relocInstr c n k ts)) = noTermB l := by
  induction l with
  | nil => rfl
  | cons i rest ih =>
      simp only [List.map_cons, noTermB, List.all_cons] at *
      rw [isTerminator_relocInstr, ih]

theorem tolRevB_map_reloc (c n k : Nat) (ts : List Nat) (l : List Instr) :
    tolRevB (l.map (relocInstr c n k ts)) = tolRevB l := by
  cases l with
  | nil => rfl
  | cons i rest => simp only [List.map_cons, tolRevB, noTermB_map_reloc]

theorem headTermB_map_reloc (c n k : Nat) (ts : List Nat) (l : List Instr) :
    headTermB (l.map (relocInstr c n k ts)) = headTermB l := by
  cases l with
  | nil => rfl
  | cons i rest => simp only [List.map_cons, headTermB, isTerminator_relocInstr]

theorem guardRev_map_reloc (c n k : Nat) (ts : List Nat)
    (hc : 9 ≤ c) (hcn : c < n) (hts : ∀ x ∈ ts, 9 ≤ x) :
    ∀ (l : List (Nat × Instr)),
    (∀ e ∈ l, e.1 = 9 ∨ (10 ≤ e.1 ∧ e.1 < 100)) →
    guardRev (l.map (relocEntry c n k ts)) = guardRev l := by
  intro l
  induction l with
  | nil => intro _; rfl
  | cons e rest ih =>
      intro hl
      have he : e.1 = 9 ∨ (10 ≤ e.1 ∧ e.1 < 100) := hl e (by simp)
      have hrest : ∀ x ∈ rest, x.1 = 9 ∨ (10 ≤ x.1 ∧ x.1 < 100) :=
        fun x hx => hl x (by simp [hx])
      have hn : 9 ≤ n := by omega
      rw [List.map_cons]
      simp only [guardRev]
      rw [isBrOne_relocEntry c n k ts e hc hn hts, ih hrest]
      congr 1
      by_cases hbr : isBrOne e
      · simp only [hbr, if_pos]
        cases rest with
        | nil => rfl
        | cons p rest2 =>
            have hpd := hl p (by simp)
            rw [List.map_cons]
            show (isRetvalStore (relocEntry c n k ts p) &&
                  ((relocEntry c n k ts p).1 == (relocEntry c n k ts e).1))
                = (isRetvalStore p && (p.1 == e.1))
            rw [isRetvalStore_relocEntry]
            congr 1
            have hiff : (relocBlk c n ts p.1 = relocBlk c n ts e.1) ↔ (p.1 = e.1) :=
              relocBlk_tag_inj c n ts p.1 e.1 hc hcn hpd he
            simp only [relocEntry]
            by_cases hpe : p.1 = e.1
            · simp [hpe]
            · simp [hpe, hiff.not.mpr hpe]
      · simp [hbr]

theorem guardRev_append (l1 l2 : List (Nat × Instr))
    (h1 : guardRev l1 = true) (h2 : guardRev l2 = true) :
    guardRev (l1 ++ l2) = true := by
  induction l1 with
  | nil => simpa using h2
  | cons e rest ih =>
      simp only [guardRev, Bool.and_eq_true] at h1
      rw [List.cons_append]
      simp only [guardRev, Bool.and_eq_true]
      refine ⟨?_, ih h1.2⟩
      by_cases hbr : isBrOne e
      · rw [if_pos hbr] at h1 ⊢
        cases rest with
        | nil => exact absurd h1.1 (by simp)
        | cons p rest2 => simpa using h1.1
      · simp [hbr]

theorem blockRev_map_reloc_at (c n k : Nat) (ts : List Nat)
    (hc : 9 ≤ c) (hcn : c < n) :
    ∀ (l : List (Nat × Instr)),
    (∀ e ∈ l, e.1 = 9 ∨ (10 ≤ e.1 ∧ e.1 < 100)) →
    ∀ (b0 : Nat), (b0 = 9 ∨ (10 ≤ b0 ∧ b0 < 100)) →
    blockRev (l.map (relocEntry c n k ts)) (relocBlk c n ts b0)
      = (blockRev l b0).map (relocInstr c n k ts) := by
  intro l
  induction l with
  | nil => intro _ b0 _; rfl
  | cons e rest ih =>
      intro hl b0 hb0
      have he : e.1 = 9 ∨ (10 ≤ e.1 ∧ e.1 < 100) := hl e (by simp)
      have hrest : ∀ x ∈ rest, x.1 = 9 ∨ (10 ≤ x.1 ∧ x.1 < 100) :=
        fun x hx => hl x (by simp [hx])
      rw [List.map_cons, blockRev_cons, blockRev_cons]
      have hinj : (relocBlk c n ts e.1 = relocBlk c n ts b0) ↔ (e.1 = b0) :=
        relocBlk_tag_inj c n ts e.1 b0 hc hcn he hb0
      by_cases he1 : e.1 = b0
      · simp only [relocEntry, hinj.mpr he1, he1, beq_self_eq_true, if_pos,
          List.map_cons]
        rw [ih hrest b0 hb0]
      · have hne : ¬ (relocBlk c n ts e.1 = relocBlk c n ts b0) := hinj.not.mpr he1
        simp only [relocEntry]
        rw [if_neg (by simpa using hne), if_neg (by simpa using he1)]
        exact ih hrest b0 hb0

theorem blockRev_map_out (c n k : Nat) (ts : List Nat) :
    ∀ (l : List (Nat × Instr)) (b : Nat),
    (∀ e ∈ l, relocBlk c n ts e.1 ≠ b) →
    blockRev (l.map (relocEntry c n k ts)) b = [] := by
  intro l
  induction l with
  | nil => intro _ _; rfl
  | cons e rest ih =>
      intro b hl
      rw [List.map_cons, blockRev_cons]
      rw [if_neg (by simpa [relocEntry] using hl e (by simp))]
      exact ih b fun x hx => hl x (by simp [hx])

/-- Per-block part of the canonical check, over blocks 0 .. N-1. -/
def groupsOKFrom (cS : BState) : Nat → Bool
  | 0 => true
  | b + 1 =>
      groupsOKFrom cS b &&
      (decide (b < 9) ||
        (tolRevB (blockRev cS.log b) &&
          (decide (b = cS.cur) || headTermB (blockRev cS.log b))))

theorem groupsOKFrom_spec (cS : BState) :
    ∀ N : Nat, groupsOKFrom cS N = true → ∀ b, b < N →
      b < 9 ∨ (tolRevB (blockRev cS.log b) = true ∧
        (b = cS.cur ∨ headTermB (blockRev cS.log b) = true)) := by
  intro N
  induction N with
  | zero => intro _ b hb; omega
  | succ m ih =>
      intro h b hb
      rw [groupsOKFrom, Bool.and_eq_true] at h
      rcases Nat.lt_succ_iff_lt_or_eq.mp hb with hlt | rfl
      · exact ih h.1 b hlt
      · have h2 := h.2
        simp only [Bool.or_eq_true, Bool.and_eq_true, decide_eq_true_eq] at h2
        exact h2

/-- Decidable well-formedness check of a canonical rule emission: the final
state of a rule run from canonState.  It requires fewer than 90 created
blocks, entry tags within the touched range, no return instruction, guarded
branches to the unified return block, and per-block body well-formedness
(terminators only in final position; every touched block other than the
final insertion block is terminated or untouched). -/
def canonRuleOK (cS : BState) : Bool :=
  decide (10 ≤ cS.nextBlock) && decide (cS.nextBlock < 100) &&
  (decide (cS.cur = 9) || (decide (10 ≤ cS.cur) && decide (cS.cur < cS.nextBlock))) &&
  cS.log.all (fun e =>
    decide (e.1 = 9) || (decide (10 ≤ e.1) && decide (e.1 < cS.nextBlock))) &&
  cS.log.all (fun e => !isRetE e) &&
  guardRev cS.log &&
  groupsOKFrom cS cS.nextBlock

/-- What the whole-function induction needs from one lowering rule, for every
state in which the driver can invoke it: the rule only prepends to the log;
it touches only the entry insertion block and freshly created blocks; it
emits no return instruction; every branch it emits to the unified return
block is immediately preceded by a store to the shared return-value slot;
each touched block body has terminators only in final position; and every
touched block other than the final insertion block is left terminated (or
untouched). -/
def RuleOK (m : Build Unit) (targs : List Nat) : Prop :=
  ∀ s : BState, 9 ≤ s.cur → s.cur < s.nextBlock → (∀ x ∈ targs, 9 ≤ x) →
    ∃ Δ : List (Nat × Instr),
      (m s).2.log = Δ ++ s.log ∧
      s.nextBlock ≤ (m s).2.nextBlock ∧
      ((m s).2.cur = s.cur ∨
        (s.nextBlock ≤ (m s).2.cur ∧ (m s).2.cur < (m s).2.nextBlock)) ∧
      (∀ e ∈ Δ, e.1 = s.cur ∨ (s.nextBlock ≤ e.1 ∧ e.1 < (m s).2.nextBlock)) ∧
      (∀ e ∈ Δ, isRetE e = false) ∧
      guardRev Δ = true ∧
      (∀ b : Nat, tolRevB (blockRev Δ b) = true) ∧
      (∀ b : Nat, s.nextBlock ≤ b → b < (m s).2.nextBlock → b ≠ (m s).2.cur →
        headTermB (blockRev Δ b) = true) ∧
      ((m s).2.cur = s.cur ∨ headTermB (blockRev Δ s.cur) = true)

theorem RuleOK_of_canon (m : Build Unit) (targs : List Nat) (cS : BState)
    (hrel : ∀ s, (m s).2 = relocState s targs cS)
    (hok : canonRuleOK cS = true) : RuleOK m targs := by
  intro s hc9 hcn hts
  unfold canonRuleOK at hok
  simp only [Bool.and_eq_true, Bool.or_eq_true, List.all_eq_true,
    decide_eq_true_eq, Bool.not_eq_true'] at hok
  obtain ⟨⟨⟨⟨⟨⟨hB1, hB2⟩, hcur0⟩, htags⟩, hnoret⟩, hguard⟩, hgroups0⟩ := hok
  have hgroups := groupsOKFrom_spec cS cS.nextBlock hgroups0
  have hdom : ∀ e ∈ cS.log, e.1 = 9 ∨ (10 ≤ e.1 ∧ e.1 < 100) := by
    intro e he
    rcases htags e he with h | h
    · exact Or.inl h
    · exact Or.inr ⟨h.1, lt_trans h.2 hB2⟩
  have hAt9 : blockRev (cS.log.map (relocEntry s.cur s.nextBlock s.nextVal targs)) s.cur
      = (blockRev cS.log 9).map (relocInstr s.cur s.nextBlock s.nextVal targs) := by
    have := blockRev_map_reloc_at s.cur s.nextBlock s.nextVal targs hc9 hcn
      cS.log hdom 9 (Or.inl rfl)
    rwa [relocBlk_nine] at this
  refine ⟨cS.log.map (relocEntry s.cur s.nextBlock s.nextVal targs), ?_, ?_, ?_, ?_, ?_, ?_, ?_, ?_, ?_⟩
  · rw [hrel]; rfl
  · rw [hrel]; show s.nextBlock ≤ s.nextBlock + (cS.nextBlock - 10); omega
  · rw [hrel]
    show relocBlk s.cur s.nextBlock targs cS.cur = s.cur ∨
      (s.nextBlock ≤ relocBlk s.cur s.nextBlock targs cS.cur ∧
        relocBlk s.cur s.nextBlock targs cS.cur < s.nextBlock + (cS.nextBlock - 10))
    rcases hcur0 with h9 | ⟨hl, hu⟩
    · rw [h9, relocBlk_nine]; exact Or.inl rfl
    · rw [relocBlk_fresh _ _ _ _ hl (lt_trans hu hB2)]
      exact Or.inr ⟨by omega, by omega⟩
  · rw [hrel]
    intro e he
    obtain ⟨e0, he0, rfl⟩ := List.mem_map.mp he
    show relocBlk s.cur s.nextBlock targs e0.1 = s.cur ∨
      (s.nextBlock ≤ relocBlk s.cur s.nextBlock targs e0.1 ∧
        relocBlk s.cur s.nextBlock targs e0.1 < s.nextBlock + (cS.nextBlock - 10))
    rcases htags e0 he0 with h9 | ⟨hl, hu⟩
    · rw [h9, relocBlk_nine]; exact Or.inl rfl
    · rw [relocBlk_fresh _ _ _ _ hl (lt_trans hu hB2)]
      exact Or.inr ⟨by omega, by omega⟩
  · intro e he
    obtain ⟨e0, he0, rfl⟩ := List.mem_map.mp he
    rw [isRetE_relocEntry]
    exact hnoret e0 he0
  · rw [guardRev_map_reloc s.cur s.nextBlock s.nextVal targs hc9 hcn hts cS.log hdom]
    exact hguard
  · intro b
    by_cases hb1 : b = s.cur
    · rw [hb1, hAt9, tolRevB_map_reloc]
      exact ((hgroups 9 (by omega)).resolve_left (by omega)).1
    · by_cases hb2 : s.nextBlock ≤ b ∧ b < s.nextBlock + (cS.nextBlock - 10)
      · obtain ⟨hbl, hbu⟩ := hb2
        have hbe : relocBlk s.cur s.nextBlock targs (b - s.nextBlock + 10) = b := by
          rw [relocBlk_fresh _ _ _ _ (by omega) (by omega)]; omega
        have hAtF : blockRev (cS.log.map (relocEntry s.cur s.nextBlock s.nextVal targs)) b
            = (blockRev cS.log (b - s.nextBlock + 10)).map
                (relocInstr s.cur s.nextBlock s.nextVal targs) := by
          have := blockRev_map_reloc_at s.cur s.nextBlock s.nextVal targs hc9 hcn
            cS.log hdom (b - s.nextBlock + 10) (Or.inr ⟨by omega, by omega⟩)
          rwa [hbe] at this
        rw [hAtF, tolRevB_map_reloc]
        exact ((hgroups (b - s.nextBlock + 10) (by omega)).resolve_left (by omega)).1
      · rw [blockRev_map_out]
        · rfl
        · intro e he
          rcases htags e he with h9 | ⟨hl, hu⟩
          · rw [h9, relocBlk_nine]; exact fun h => hb1 h.symm
          · rw [relocBlk_fresh _ _ _ _ hl (lt_trans hu hB2)]
            omega
  · rw [hrel]
    intro b hbl hbu hb
    replace hb : b ≠ relocBlk s.cur s.nextBlock targs cS.cur := hb
    have hbu2 : b < s.nextBlock + (cS.nextBlock - 10) := hbu
    have hbe : relocBlk s.cur s.nextBlock targs (b - s.nextBlock + 10) = b := by
      rw [relocBlk_fresh _ _ _ _ (by omega) (by omega)]; omega
    have hbcur : b - s.nextBlock + 10 ≠ cS.cur := by
      intro h
      exact hb (by rw [← h, hbe])
    have hAtF : blockRev (cS.log.map (relocEntry s.cur s.nextBlock s.nextVal targs)) b
        = (blockRev cS.log (b - s.nextBlock + 10)).map
            (relocInstr s.cur s.nextBlock s.nextVal targs) := by
      have := blockRev_map_reloc_at s.cur s.nextBlock s.nextVal targs hc9 hcn
        cS.log hdom (b - s.nextBlock + 10) (Or.inr ⟨by omega, by omega⟩)
      rwa [hbe] at this
    rw [hAtF, headTermB_map_reloc]
    exact (((hgroups (b - s.nextBlock + 10) (by omega)).resolve_left (by omega)).2).resolve_left
      hbcur
  · rw [hrel]
    rcases ((hgroups 9 (by omega)).resolve_left (by omega)).2 with h | h
    · left
      show relocBlk s.cur s.nextBlock targs cS.cur = s.cur
      rw [← h, relocBlk_nine]
    · right
      rw [hAt9, headTermB_map_reloc]
      exact h

/-! The opcode set of the lowering engine: one constructor per lowering rule
of ll_compile.cc.  Control-transfer opcodes carry the index of their target
opcode; the driver resolves indices to blocks. -/

inductive Opcode where
  | LOAD_CONST (i : Int)
  | LOAD_GLOBAL (i : Int)
  | STORE_GLOBAL (i : Int)
  | DELETE_GLOBAL (i : Int)
  | LOAD_FAST (i : Int)
  | LOAD_DEREF (i : Int)
  | STORE_DEREF (i : Int)
  | LOAD_ATTR (i : Int)
  | STORE_ATTR (i : Int)
  | DELETE_ATTR (i : Int)
  | CALL_FUNCTION (n : Int)
  | CALL_FUNCTION_VAR_KW (n : Int)
  | JUMP_ABSOLUTE (t : Nat)
  | POP_JUMP_IF_FALSE (t : Nat)
  | POP_JUMP_IF_TRUE (t : Nat)
  | JUMP_IF_FALSE_OR_POP (t : Nat)
  | JUMP_IF_TRUE_OR_POP (t : Nat)
  | STORE_FAST (i : Int)
  | DELETE_FAST (i : Int)
  | SETUP_LOOP (t : Nat)
  | GET_ITER
  | FOR_ITER (t : Nat)
  | POP_BLOCK
  | RETURN_VALUE
  | RAISE_VARARGS_ZERO
  | RAISE_VARARGS_ONE
  | RAISE_VARARGS_TWO
  | RAISE_VARARGS_THREE
  | STORE_SUBSCR
  | DELETE_SUBSCR
  | BINARY_ADD
  | BINARY_SUBTRACT
  | BINARY_MULTIPLY
  | BINARY_TRUE_DIVIDE
  | BINARY_DIVIDE
  | BINARY_MODULO
  | BINARY_LSHIFT
  | BINARY_RSHIFT
  | BINARY_OR
  | BINARY_XOR
  | BINARY_AND
  | BINARY_FLOOR_DIVIDE
  | BINARY_SUBSCR
  | INPLACE_ADD
  | INPLACE_SUBTRACT
  | INPLACE_MULTIPLY
  | INPLACE_TRUE_DIVIDE
  | INPLACE_DIVIDE
  | INPLACE_MODULO
  | INPLACE_LSHIFT
  | INPLACE_RSHIFT
  | INPLACE_OR
  | INPLACE_XOR
  | INPLACE_AND
  | INPLACE_FLOOR_DIVIDE
  | BINARY_POWER
  | INPLACE_POWER
  | POP_TOP
  | DUP_TOP
  | DUP_TOP_TWO
  | DUP_TOP_THREE
  | ROT_TWO
  | ROT_THREE
  | ROT_FOUR
  | LIST_APPEND
  | STORE_MAP
  | BUILD_LIST (n : Int)
  | BUILD_TUPLE (n : Int)
  | BUILD_MAP (n : Int)
  | UNARY_CONVERT
  | UNARY_INVERT
  | UNARY_POSITIVE
  | UNARY_NEGATIVE
  | UNARY_NOT
  | COMPARE_OP (c : PyCmpOp)
  | BUILD_SLICE_TWO
  | BUILD_SLICE_THREE
  | SLICE_BOTH
  | SLICE_LEFT
  | SLICE_RIGHT
  | SLICE_NONE
  | STORE_SLICE_BOTH
  | STORE_SLICE_LEFT
  | STORE_SLICE_RIGHT
  | STORE_SLICE_NONE
  | DELETE_SLICE_BOTH
  | DELETE_SLICE_LEFT
  | DELETE_SLICE_RIGHT
  | DELETE_SLICE_NONE
  | UNPACK_SEQUENCE (n : Int)

/-- Dispatch of one opcode to its lowering rule; tgt resolves a target opcode
index to its basic block, ft is the fall-through block after this opcode. -/
def lowerOp (tgt : Nat → Nat) (ft : Nat) : Opcode → Build Unit
  | .LOAD_CONST i => LOAD_CONST i
  | .LOAD_GLOBAL i => LOAD_GLOBAL i
  | .STORE_GLOBAL i => STORE_GLOBAL i
  | .DELETE_GLOBAL i => DELETE_GLOBAL i
  | .LOAD_FAST i => LOAD_FAST i
  | .LOAD_DEREF i => LOAD_DEREF i
  | .STORE_DEREF i => STORE_DEREF i
  | .LOAD_ATTR i => LOAD_ATTR i
  | .STORE_ATTR i => STORE_ATTR i
  | .DELETE_ATTR i => DELETE_ATTR i
  | .CALL_FUNCTION n => CALL_FUNCTION n
  | .CALL_FUNCTION_VAR_KW n => CALL_FUNCTION_VAR_KW n
  | .JUMP_ABSOLUTE t => JUMP_ABSOLUTE (tgt t) ft
  | .POP_JUMP_IF_FALSE t => POP_JUMP_IF_FALSE (tgt t) ft
  | .POP_JUMP_IF_TRUE t => POP_JUMP_IF_TRUE (tgt t) ft
  | .JUMP_IF_FALSE_OR_POP t => JUMP_IF_FALSE_OR_POP (tgt t) ft
  | .JUMP_IF_TRUE_OR_POP t => JUMP_IF_TRUE_OR_POP (tgt t) ft
  | .STORE_FAST i => STORE_FAST i
  | .DELETE_FAST i => DELETE_FAST i
  | .SETUP_LOOP t => SETUP_LOOP (tgt t) ft
  | .GET_ITER => GET_ITER
  | .FOR_ITER t => FOR_ITER (tgt t) ft
  | .POP_BLOCK => POP_BLOCK
  | .RETURN_VALUE => RETURN_VALUE
  | .RAISE_VARARGS_ZERO => RAISE_VARARGS_ZERO
  | .RAISE_VARARGS_ONE => RAISE_VARARGS_ONE
  | .RAISE_VARARGS_TWO => RAISE_VARARGS_TWO
  | .RAISE_VARARGS_THREE => RAISE_VARARGS_THREE
  | .STORE_SUBSCR => STORE_SUBSCR
  | .DELETE_SUBSCR => DELETE_SUBSCR
  | .BINARY_ADD => BINARY_ADD
  | .BINARY_SUBTRACT => BINARY_SUBTRACT
  | .BINARY_MULTIPLY => BINARY_MULTIPLY
  | .BINARY_TRUE_DIVIDE => BINARY_TRUE_DIVIDE
  | .BINARY_DIVIDE => BINARY_DIVIDE
  | .BINARY_MODULO => BINARY_MODULO
  | .BINARY_LSHIFT => BINARY_LSHIFT
  | .BINARY_RSHIFT => BINARY_RSHIFT
  | .BINARY_OR => BINARY_OR
  | .BINARY_XOR => BINARY_XOR
  | .BINARY_AND => BINARY_AND
  | .BINARY_FLOOR_DIVIDE => BINARY_FLOOR_DIVIDE
  | .BINARY_SUBSCR => BINARY_SUBSCR
  | .INPLACE_ADD => INPLACE_ADD
  | .INPLACE_SUBTRACT => INPLACE_SUBTRACT
  | .INPLACE_MULTIPLY => INPLACE_MULTIPLY
  | .INPLACE_TRUE_DIVIDE => INPLACE_TRUE_DIVIDE
  | .INPLACE_DIVIDE => INPLACE_DIVIDE
  | .INPLACE_MODULO => INPLACE_MODULO
  | .INPLACE_LSHIFT => INPLACE_LSHIFT
  | .INPLACE_RSHIFT => INPLACE_RSHIFT
  | .INPLACE_OR => INPLACE_OR
  | .INPLACE_XOR => INPLACE_XOR
  | .INPLACE_AND => INPLACE_AND
  | .INPLACE_FLOOR_DIVIDE => INPLACE_FLOOR_DIVIDE
  | .BINARY_POWER => BINARY_POWER
  | .INPLACE_POWER => INPLACE_POWER
  | .POP_TOP => POP_TOP
  | .DUP_TOP => DUP_TOP
  | .DUP_TOP_TWO => DUP_TOP_TWO
  | .DUP_TOP_THREE => DUP_TOP_THREE
  | .ROT_TWO => ROT_TWO
  | .ROT_THREE => ROT_THREE
  | .ROT_FOUR => ROT_FOUR
  | .LIST_APPEND => LIST_APPEND
  | .STORE_MAP => STORE_MAP
  | .BUILD_LIST n => BUILD_LIST n
  | .BUILD_TUPLE n => BUILD_TUPLE n
  | .BUILD_MAP n => BUILD_MAP n
  | .UNARY_CONVERT => UNARY_CONVERT
  | .UNARY_INVERT => UNARY_INVERT
  | .UNARY_POSITIVE => UNARY_POSITIVE
  | .UNARY_NEGATIVE => UNARY_NEGATIVE
  | .UNARY_NOT => UNARY_NOT
  | .COMPARE_OP c => COMPARE_OP c
  | .BUILD_SLICE_TWO => BUILD_SLICE_TWO
  | .BUILD_SLICE_THREE => BUILD_SLICE_THREE
  | .SLICE_BOTH => SLICE_BOTH
  | .SLICE_LEFT => SLICE_LEFT
  | .SLICE_RIGHT => SLICE_RIGHT
  | .SLICE_NONE => SLICE_NONE
  | .STORE_SLICE_BOTH => STORE_SLICE_BOTH
  | .STORE_SLICE_LEFT => STORE_SLICE_LEFT
  | .STORE_SLICE_RIGHT => STORE_SLICE_RIGHT
  | .STORE_SLICE_NONE => STORE_SLICE_NONE
  | .DELETE_SLICE_BOTH => DELETE_SLICE_BOTH
  | .DELETE_SLICE_LEFT => DELETE_SLICE_LEFT
  | .DELETE_SLICE_RIGHT => DELETE_SLICE_RIGHT
  | .DELETE_SLICE_NONE => DELETE_SLICE_NONE
  | .UNPACK_SEQUENCE n => UNPACK_SEQUENCE n

/-- Canonical instance of each rule: block parameters replaced by the
sentinel ids 100 (target) and 101 (fall-through). -/
def canonBuild : Opcode → Build Unit
  | .JUMP_ABSOLUTE _ => JUMP_ABSOLUTE 100 101
  | .POP_JUMP_IF_FALSE _ => POP_JUMP_IF_FALSE 100 101
  | .POP_JUMP_IF_TRUE _ => POP_JUMP_IF_TRUE 100 101
  | .JUMP_IF_FALSE_OR_POP _ => JUMP_IF_FALSE_OR_POP 100 101
  | .JUMP_IF_TRUE_OR_POP _ => JUMP_IF_TRUE_OR_POP 100 101
  | .SETUP_LOOP _ => SETUP_LOOP 100 101
  | .FOR_ITER _ => FOR_ITER 100 101
  | op => lowerOp id 101 op

/-- Block parameters a rule receives, in sentinel order. -/
def opTargs (tgt : Nat → Nat) (ft : Nat) : Opcode → List Nat
  | .JUMP_ABSOLUTE t | .POP_JUMP_IF_FALSE t | .POP_JUMP_IF_TRUE t
  | .JUMP_IF_FALSE_OR_POP t | .JUMP_IF_TRUE_OR_POP t | .SETUP_LOOP t
  | .FOR_ITER t => [tgt t, ft]
  | _ => []

set_option maxHeartbeats 3200000 in
/-- Relocation equation for every opcode: lowering from an arbitrary state is
the canonical lowering with blocks and values renamed. -/
theorem lowerOp_reloc (tgt : Nat → Nat) (ft : Nat) (op : Opcode) (s : BState) :
    (lowerOp tgt ft op s).2
      = relocState s (opTargs tgt ft op) ((canonBuild op) canonState).2 := by
  cases op
  case COMPARE_OP c => cases c <;> rfl
  all_goals rfl

set_option maxHeartbeats 3200000 in
/-- The canonical emission of every opcode passes the structural check. -/
theorem lowerOp_canonOK (op : Opcode) :
    canonRuleOK ((canonBuild op) canonState).2 = true := by
  cases op
  case COMPARE_OP c => cases c <;> rfl
  all_goals rfl

/-- Every lowering rule satisfies the whole-function step contract. -/
theorem lowerOp_ruleOK (tgt : Nat → Nat) (ft : Nat) (op : Opcode) :
    RuleOK (lowerOp tgt ft op) (opTargs tgt ft op) :=
  RuleOK_of_canon _ _ _ (lowerOp_reloc tgt ft op) (lowerOp_canonOK op)

/-! Driver model.  The driver that decodes the bytecode and invokes one
lowering rule per opcode is not part of ll_compile.cc. -/

/-- Modelled from the spec: the driver pre-creates all jump-target blocks
before lowering reaches them (spec section 6, driver contract); one block per
opcode, in order, after the nine blocks of the constructor. -/
def opcodeBlock (i : Nat) : Nat := 9 + i

/-- Modelled from the spec: pre-creation of the per-opcode blocks. -/
def preCreateBlocks : Nat → Build Unit
  | 0 => Build.pure ()
  | n + 1 => do
      let _ ← newBlock "opcode_block"
      preCreateBlocks n

/-- Modelled from the spec: the driver decodes one opcode at a time in
program order and calls the matching lowering rule with its decoded operand
and, for control transfers, the resolved target and fall-through blocks
(spec section 6); sequential opcodes are chained with the fallthrough helper
(spec section 4.4). -/
def driverStep (i : Nat) (op : Opcode) : Build Unit := do
  FallThroughTo (opcodeBlock i)
  lowerOp opcodeBlock (opcodeBlock (i + 1)) op

/-- Modelled from the spec: lowering of the opcodes of a program from
absolute index i on. -/
def lowerSeq : Nat → List Opcode → Build Unit
  | _, [] => Build.pure ()
  | i, op :: rest => do
      driverStep i op
      lowerSeq (i + 1) rest

/-- Modelled from the spec: lowering of one whole function body: the
constructor (which fills the unified return block before any opcode is
lowered), the pre-created opcode blocks, then every opcode in order. -/
def lowerFunction (prog : List Opcode) : BState :=
  ((do ConstructorBuild
       preCreateBlocks prog.length
       lowerSeq 0 prog) initState).2

theorem preCreateBlocks_run : ∀ (k : Nat) (s : BState),
    (preCreateBlocks k s).2 = { s with nextBlock := s.nextBlock + k } := by
  intro k
  induction k with
  | zero => intro s; rfl
  | succ m ih =>
      intro s
      show (preCreateBlocks m { s with nextBlock := s.nextBlock + 1 }).2 = _
      rw [ih]
      show ({ s with nextBlock := s.nextBlock + 1 + m } : BState) = _
      have : s.nextBlock + 1 + m = s.nextBlock + (m + 1) := by omega
      rw [this]

theorem FallThroughTo_run (b : Nat) (s : BState) :
    (FallThroughTo b s).2 =
      if blockTerminated s.log s.cur
      then { s with cur := b }
      else { s with log := (s.cur, Instr.br b) :: s.log, cur := b } := by
  by_cases h : blockTerminated s.log s.cur <;>
    simp [FallThroughTo, h, Build.bind, getState, emit, setInsert, Build.pure]

theorem blockRev_nil_of_tags : ∀ (l : List (Nat × Instr)) (b : Nat),
    (∀ e ∈ l, e.1 ≠ b) → blockRev l b = [] := by
  intro l
  induction l with
  | nil => intro _ _; rfl
  | cons e rest ih =>
      intro b hl
      rw [blockRev_cons, if_neg (by simpa using hl e (by simp))]
      exact ih b fun x hx => hl x (by simp [hx])

theorem noTermB_of_tol_head (l : List Instr)
    (h1 : tolRevB l = true) (h2 : headTermB l = false) : noTermB l = true := by
  cases l with
  | nil => rfl
  | cons i rest =>
      simp only [tolRevB] at h1
      simp only [headTermB] at h2
      simp [noTermB, List.all_cons, h2, h1]
      exact fun j hj => by
        have := h1
        simp only [noTermB, List.all_eq_true] at this
        simpa using this j hj

theorem opTargs_ge9 (i : Nat) (op : Opcode) :
    ∀ x ∈ opTargs opcodeBlock (opcodeBlock (i + 1)) op, 9 ≤ x := by
  cases op <;> intro x hx <;> simp [opTargs, opcodeBlock] at hx <;>
    rcases hx with rfl | rfl <;> omega

/-- Invariant of the driver loop after the first i opcodes are lowered. -/
structure DriverInv (len i : Nat) (s : BState) : Prop where
  hnb : 9 + len ≤ s.nextBlock
  hcur : s.cur < s.nextBlock
  hcur9 : s.cur = 0 ∨ 9 ≤ s.cur
  hcurp : ∀ j, i ≤ j → j < len → s.cur ≠ 9 + j
  htags : ∀ e ∈ s.log, e.1 < s.nextBlock
  hpend : ∀ j, i ≤ j → j < len → blockRev s.log (9 + j) = []
  hfix : ∀ b, 1 ≤ b → b ≤ 8 → blockRev s.log b = blockRev constructorState.log b
  hret : ∀ e ∈ s.log, isRetE e = true → e.1 = 4
  hguard : guardRev s.log = true
  htol : ∀ b, tolRevB (blockRev s.log b) = true
  hterm : ∀ b, b < s.nextBlock → b ≠ s.cur →
    (∀ j, i ≤ j → j < len → b ≠ 9 + j) → headTermB (blockRev s.log b) = true

def baseState (len : Nat) : BState :=
  ((do ConstructorBuild
       preCreateBlocks len) initState).2

theorem baseState_eq (len : Nat) :
    baseState len = { constructorState with nextBlock := 9 + len } := by
  show (preCreateBlocks len constructorState).2 = _
  rw [preCreateBlocks_run]
  rfl

theorem constructorState_tags : ∀ e ∈ constructorState.log, e.1 < 9 := by decide

theorem constructorState_guard : guardRev constructorState.log = true := by decide

theorem constructorState_ret :
    ∀ e ∈ constructorState.log, isRetE e = true → e.1 = 4 := by decide

theorem constructorState_term :
    ∀ b, b < 9 → b ≠ 0 → headTermB (blockRev constructorState.log b) = true := by decide

theorem constructorState_tol :
    ∀ b, b < 9 → tolRevB (blockRev constructorState.log b) = true := by decide

theorem DriverInv_base (len : Nat) : DriverInv len 0 (baseState len) := by
  rw [baseState_eq]
  refine ⟨?_, ?_, ?_, ?_, ?_, ?_, ?_, ?_, ?_, ?_, ?_⟩
  · exact Nat.le_refl _
  · show constructorState.cur < 9 + len
    have : constructorState.cur = 0 := rfl
    omega
  · exact Or.inl rfl
  · intro j _ _
    show constructorState.cur ≠ 9 + j
    have : constructorState.cur = 0 := rfl
    omega
  · intro e he
    have := constructorState_tags e he
    show e.1 < 9 + len
    omega
  · intro j _ _
    exact blockRev_nil_of_tags _ _ fun e he => by
      have := constructorState_tags e he; omega
  · intro b _ _; rfl
  · exact constructorState_ret
  · exact constructorState_guard
  · intro b
    by_cases hb : b < 9
    · exact constructorState_tol b hb
    · rw [blockRev_nil_of_tags _ _ fun e he => by
        have := constructorState_tags e he; omega]
      rfl
  · intro b hb1 hb2 hb3
    have hb1e : b < 9 + len := hb1
    have hb2e : b ≠ 0 := hb2
    by_cases hb : b < 9
    · exact constructorState_term b hb hb2e
    · exact absurd (by omega : b = 9 + (b - 9)) (hb3 (b - 9) (by omega) (by omega))

theorem DriverInv_step_core (len i : Nat) (op : Opcode) (s1 : BState)
    (hi : i < len)
    (mA : 9 + len ≤ s1.nextBlock)
    (mB : s1.cur = 9 + i)
    (mC : ∀ j, i ≤ j → j < len → blockRev s1.log (9 + j) = [])
    (mD : ∀ e ∈ s1.log, e.1 < s1.nextBlock)
    (mE : ∀ b, 1 ≤ b → b ≤ 8 → blockRev s1.log b = blockRev constructorState.log b)
    (mF : ∀ e ∈ s1.log, isRetE e = true → e.1 = 4)
    (mG : guardRev s1.log = true)
    (mH : ∀ b, tolRevB (blockRev s1.log b) = true)
    (mI : ∀ b, b < s1.nextBlock → b ≠ 9 + i →
      (∀ j, i + 1 ≤ j → j < len → b ≠ 9 + j) → headTermB (blockRev s1.log b) = true) :
    DriverInv len (i + 1) ((lowerOp opcodeBlock (opcodeBlock (i + 1)) op) s1).2 := by
  obtain ⟨Δ, c1, c2, c3, c4, c5, c6, c7, c8, c9⟩ :=
    lowerOp_ruleOK opcodeBlock (opcodeBlock (i + 1)) op s1
      (by omega) (by omega) (opTargs_ge9 i op)
  have hdecomp : ∀ b,
      blockRev ((lowerOp opcodeBlock (opcodeBlock (i + 1)) op) s1).2.log b
        = blockRev Δ b ++ blockRev s1.log b := by
    intro b
    rw [c1, blockRev_append]
  have hdout : ∀ b, b ≠ s1.cur →
      (b < s1.nextBlock ∨ ((lowerOp opcodeBlock (opcodeBlock (i + 1)) op) s1).2.nextBlock ≤ b) →
      blockRev Δ b = [] := by
    intro b hb1 hb2
    apply blockRev_nil_of_tags
    intro e he
    rcases c4 e he with h9 | ⟨hl, hu⟩
    · rw [h9]
      exact fun hh => hb1 hh.symm
    · rcases hb2 with hb2 | hb2 <;> omega
  have holdout : ∀ b, s1.nextBlock ≤ b → blockRev s1.log b = [] := by
    intro b hb
    exact blockRev_nil_of_tags _ _ fun e he => by have := mD e he; omega
  refine ⟨?_, ?_, ?_, ?_, ?_, ?_, ?_, ?_, ?_, ?_, ?_⟩
  · omega
  · rcases c3 with h | ⟨h1, h2⟩
    · rw [h]; omega
    · exact h2
  · rcases c3 with h | ⟨h1, h2⟩
    · rw [h]; right; omega
    · right; omega
  · intro j hj1 hj2
    rcases c3 with h | ⟨h1, h2⟩
    · rw [h]; omega
    · omega
  · intro e he
    rw [c1] at he
    rcases List.mem_append.mp he with he | he
    · rcases c4 e he with h9 | ⟨hl, hu⟩
      · rw [h9]; omega
      · exact hu
    · have := mD e he; omega
  · intro j hj1 hj2
    rw [hdecomp]
    rw [blockRev_nil_of_tags Δ (9 + j) (fun e he => by
      rcases c4 e he with h9 | ⟨hl, hu⟩
      · rw [h9]; omega
      · omega),
      mC j (by omega) hj2]
    rfl
  · intro b hb1 hb8
    rw [hdecomp]
    rw [blockRev_nil_of_tags Δ b (fun e he => by
      rcases c4 e he with h9 | ⟨hl, hu⟩
      · rw [h9]; omega
      · omega),
      List.nil_append]
    exact mE b hb1 hb8
  · intro e he hre
    rw [c1] at he
    rcases List.mem_append.mp he with he | he
    · rw [c5 e he] at hre
      exact absurd hre (by simp)
    · exact mF e he hre
  · rw [c1]
    exact guardRev_append Δ s1.log c6 mG
  · intro b
    rw [hdecomp]
    by_cases hb : b = s1.cur
    · rw [hb, mB, mC i (Nat.le_refl i) hi, List.append_nil, ← mB]
      exact c7 s1.cur
    · by_cases hb2 : s1.nextBlock ≤ b
      · rw [holdout b hb2, List.append_nil]
        exact c7 b
      · rw [hdout b hb (Or.inl (by omega)), List.nil_append]
        exact mH b
  · intro b hblt hbcur hbpend
    rw [hdecomp]
    by_cases hb : b = s1.cur
    · rw [hb, mB, mC i (Nat.le_refl i) hi, List.append_nil, ← mB]
      rcases c9 with h | h
      · exact absurd (hb.trans h.symm) hbcur
      · exact h
    · by_cases hb2 : s1.nextBlock ≤ b
      · rw [holdout b hb2, List.append_nil]
        exact c8 b hb2 hblt hbcur
      · rw [hdout b hb (Or.inl (by omega)), List.nil_append]
        exact mI b (by omega) (by rw [← mB]; exact hb) hbpend

theorem DriverInv_step (len i : Nat) (op : Opcode) (s : BState)
    (hi : i < len) (h : DriverInv len i s) :
    DriverInv len (i + 1) ((driverStep i op) s).2 := by
  obtain ⟨hnb, hcur, hcur9, hcurp, htags, hpend, hfix, hret, hguard, htol, hterm⟩ := h
  show DriverInv len (i + 1)
    ((lowerOp opcodeBlock (opcodeBlock (i + 1)) op) ((FallThroughTo (opcodeBlock i) s).2)).2
  have hs1 := FallThroughTo_run (opcodeBlock i) s
  by_cases hft : blockTerminated s.log s.cur
  · rw [if_pos hft] at hs1
    rw [hs1]
    apply DriverInv_step_core len i op _ hi
    · exact hnb
    · rfl
    · exact hpend
    · exact htags
    · exact hfix
    · exact hret
    · exact hguard
    · exact htol
    · intro b hb1 hb2 hb3
      by_cases hbc : b = s.cur
      · rw [hbc]
        rw [blockTerminated_eq] at hft
        exact hft
      · exact hterm b hb1 hbc fun j hj1 hj2 => by
          rcases Nat.lt_or_ge j (i + 1) with hj | hj
          · have hji : j = i := by omega
            rw [hji]
            exact hb2
          · exact hb3 j hj hj2
  · rw [if_neg hft] at hs1
    rw [hs1]
    have hcne : s.cur ≠ 9 + i := hcurp i (Nat.le_refl i) hi
    apply DriverInv_step_core len i op _ hi
    · exact hnb
    · rfl
    · intro j hj1 hj2
      show blockRev ((s.cur, Instr.br (opcodeBlock i)) :: s.log) (9 + j) = []
      rw [blockRev_cons, if_neg (by simpa using hcurp j hj1 hj2)]
      exact hpend j hj1 hj2
    · intro e he
      rcases List.mem_cons.mp he with rfl | he
      · exact hcur
      · exact htags e he
    · intro b hb1 hb8
      show blockRev ((s.cur, Instr.br (opcodeBlock i)) :: s.log) b = _
      rw [blockRev_cons, if_neg (by
        rcases hcur9 with h0 | h9
        · simp [h0]; omega
        · simp; omega)]
      exact hfix b hb1 hb8
    · intro e he hre
      rcases List.mem_cons.mp he with rfl | he
      · exact absurd hre (by simp [isRetE])
      · exact hret e he hre
    · show guardRev ((s.cur, Instr.br (opcodeBlock i)) :: s.log) = true
      simp only [guardRev, Bool.and_eq_true]
      refine ⟨?_, hguard⟩
      rw [if_neg (by simp [isBrOne, opcodeBlock, returnBlockId]; omega)]
    · intro b
      show tolRevB (blockRev ((s.cur, Instr.br (opcodeBlock i)) :: s.log) b) = true
      rw [blockRev_cons]
      by_cases hbc : s.cur = b
      · rw [if_pos (by simpa using hbc)]
        show tolRevB (Instr.br (opcodeBlock i) :: blockRev s.log b) = true
        show noTermB (blockRev s.log b) = true
        rw [blockTerminated_eq] at hft
        rw [← hbc]
        exact noTermB_of_tol_head _ (htol s.cur) (by simpa using hft)
      · rw [if_neg (by simpa using hbc)]
        exact htol b
    · intro b hb1 hb2 hb3
      show headTermB (blockRev ((s.cur, Instr.br (opcodeBlock i)) :: s.log) b) = true
      rw [blockRev_cons]
      by_cases hbc : s.cur = b
      · rw [if_pos (by simpa using hbc)]
        rfl
      · rw [if_neg (by simpa using hbc)]
        exact hterm b hb1 (fun he => hbc he.symm) fun j hj1 hj2 => by
          rcases Nat.lt_or_ge j (i + 1) with hj | hj
          · have hji : j = i := by omega
            rw [hji]
            exact hb2
          · exact hb3 j hj hj2

theorem lowerSeq_inv :
    ∀ (rest : List Opcode) (len i : Nat) (s : BState),
    i + rest.length ≤ len → DriverInv len i s →
    DriverInv len (i + rest.length) ((lowerSeq i rest) s).2 := by
  intro rest
  induction rest with
  | nil =>
      intro len i s _ h
      simpa using h
  | cons op rest ih =>
      intro len i s hlen h
      have hlen2 : i + (rest.length + 1) ≤ len := by simpa using hlen
      have hstep := DriverInv_step len i op s (by omega) h
      have := ih len (i + 1) ((driverStep i op) s).2 (by omega) hstep
      show DriverInv len (i + (op :: rest).length) ((lowerSeq (i + 1) rest) ((driverStep i op) s).2).2
      have harith : i + (op :: rest).length = i + 1 + rest.length := by
        simp [List.length_cons]; omega
      rw [harith]
      exact this

theorem lowerSeq_append (l1 l2 : List Opcode) : ∀ (i : Nat) (s : BState),
    (lowerSeq i (l1 ++ l2) s).2 = (lowerSeq (i + l1.length) l2 ((lowerSeq i l1 s).2)).2 := by
  induction l1 with
  | nil => intro i s; rw [show i + List.length ([] : List Opcode) = i by simp]; rfl
  | cons op rest ih =>
      intro i s
      show (lowerSeq (i + 1) (rest ++ l2) ((driverStep i op s).2)).2 = _
      rw [ih]
      have harith : i + 1 + rest.length = i + (op :: rest).length := by
        simp [List.length_cons]; omega
      rw [harith]
      rfl

/-- Execution of the RETURN_VALUE rule, fully evaluated. -/
theorem RETURN_VALUE_run (s : BState) :
    (RETURN_VALUE s).2 =
      { s with
        nextVal := s.nextVal + 1,
        log := (s.cur, .br 1)
            :: (s.cur, .store .retvalAddr (.v s.nextVal))
            :: (s.cur, .pop (.v s.nextVal)) :: s.log } := rfl

theorem RETURN_VALUE_terminates_cur (s : BState) :
    headTermB (blockRev (RETURN_VALUE s).2.log (RETURN_VALUE s).2.cur) = true := by
  rw [RETURN_VALUE_run]
  show headTermB (blockRev ((s.cur, Instr.br 1) :: _) s.cur) = true
  rw [blockRev_cons, if_pos (by simp)]
  rfl

theorem lowerFunction_inv (prog : List Opcode) :
    DriverInv prog.length prog.length (lowerFunction prog) := by
  have hbase := DriverInv_base prog.length
  have := lowerSeq_inv prog prog.length 0 (baseState prog.length) (by omega) hbase
  simpa using this

/-- The final state of a whole-function lowering whose last opcode is
RETURN_VALUE: the invariant holds at the end and the final insertion block is
terminated. -/
theorem lowerFunction_last (body : List Opcode) :
    DriverInv (body ++ [Opcode.RETURN_VALUE]).length
      (body ++ [Opcode.RETURN_VALUE]).length
      (lowerFunction (body ++ [Opcode.RETURN_VALUE])) ∧
    headTermB (blockRev (lowerFunction (body ++ [Opcode.RETURN_VALUE])).log
      (lowerFunction (body ++ [Opcode.RETURN_VALUE])).cur) = true := by
  refine ⟨lowerFunction_inv _, ?_⟩
  have hdec : lowerFunction (body ++ [Opcode.RETURN_VALUE])
      = (driverStep body.length Opcode.RETURN_VALUE
          ((lowerSeq 0 body (baseState (body ++ [Opcode.RETURN_VALUE]).length)).2)).2 := by
    show (lowerSeq 0 (body ++ [Opcode.RETURN_VALUE])
        (baseState (body ++ [Opcode.RETURN_VALUE]).length)).2 = _
    rw [lowerSeq_append]
    rw [show (0 : Nat) + body.length = body.length by omega]
    rfl
  rw [hdec]
  exact RETURN_VALUE_terminates_cur _

theorem blockRev_mem_log : ∀ (log : List (Nat × Instr)) (b : Nat) (i : Instr),
    i ∈ blockRev log b → (b, i) ∈ log := by
  intro log
  induction log with
  | nil => intro b i h; cases h
  | cons e rest ih =>
      intro b i h
      rw [blockRev_cons] at h
      by_cases hb : e.1 == b
      · rw [if_pos hb] at h
        rcases List.mem_cons.mp h with rfl | h
        · have hbe : e.1 = b := by simpa using hb
          exact List.mem_cons.mpr (Or.inl (by rw [← hbe]))
        · exact List.mem_cons_of_mem e (ih b i h)
      · rw [if_neg hb] at h
        exact List.mem_cons_of_mem e (ih b i h)

theorem block_decomp (l : List Instr)
    (h1 : headTermB l = true) (h2 : tolRevB l = true) :
    ∃ bdy tm, l.reverse = bdy ++ [tm] ∧ tm.isTerminator = true ∧
      ∀ i ∈ bdy, i.isTerminator = false := by
  cases l with
  | nil => cases h1
  | cons tm rest =>
      refine ⟨rest.reverse, tm, by simp, h1, ?_⟩
      intro i hi
      rw [List.mem_reverse] at hi
      have h3 : ∀ x ∈ rest, ¬x.isTerminator = true := by
        simpa [tolRevB, noTermB, List.all_eq_true] using h2
      simpa using h3 i hi

/-! Helper counters over emission lists, used by the claim theorems. -/

def countPop (l : List (Nat × Instr)) : Nat :=
  l.countP fun e => match e.2 with | .pop _ => true | _ => false

def countPush (l : List (Nat × Instr)) : Nat :=
  l.countP fun e => match e.2 with | .push _ => true | _ => false

def countIncRef (l : List (Nat × Instr)) : Nat :=
  l.countP fun e => match e.2 with | .incRef _ => true | _ => false

/-- Number of emitted refcount decrements (one per DecRef / taken XDecRef). -/
def countRelease (l : List (Nat × Instr)) : Nat :=
  l.countP fun e => match e.2 with | .decRefDec _ _ => true | _ => false

def countReleaseOf (v : Val) (l : List (Nat × Instr)) : Nat :=
  l.countP fun e => match e.2 with | .decRefDec a _ => a == v | _ => false

def countIncRefOf (v : Val) (l : List (Nat × Instr)) : Nat :=
  l.countP fun e => match e.2 with | .incRef a => a == v | _ => false

def countCallRt (f : String) (l : List (Nat × Instr)) : Nat :=
  l.countP fun e => match e.2 with | .callRt g _ _ => g == f | _ => false

/-- Number of calls to runtime entry points other than the dealloc wrapper
reached from refcount release. -/
def countRtCalls (l : List (Nat × Instr)) : Nat :=
  l.countP fun e => match e.2 with
    | .callRt _ _ _ => true
    | .callRtVoid f _ => !(f == "_PyLlvm_WrapDealloc")
    | .callIndirect _ _ _ => true
    | _ => false

def countAlloca (l : List (Nat × Instr)) : Nat :=
  l.countP fun e => match e.2 with | .alloca _ _ => true | _ => false

def countRetvalStore (l : List (Nat × Instr)) : Nat := l.countP isRetvalStore

def countBrOne (l : List (Nat × Instr)) : Nat := l.countP isBrOne

/-! Claim C2: the function-call lowering rules. -/

/-- Emission of CALL_FUNCTION (ll_compile.cc:882-912), in execution order:
capture the stack pointer by value into a fresh temporary slot, call the
dispatch entry point with the temporary slot and the argument count, reload
the possibly updated pointer into the real slot, branch to unified error
return on null, else push the result. -/
def callFunctionTrace (numArgs : Int) (s : BState) : List (Nat × Instr) :=
  [(s.cur, .alloca "CALL_FUNCTION_stack_pointer_addr" (.v s.nextVal)),
   (s.cur, .load .spAddr (.v (s.nextVal + 1))),
   (s.cur, .store (.v s.nextVal) (.v (s.nextVal + 1))),
   (s.cur, .callRt "_PyEval_CallFunction" [.v s.nextVal, .intConst numArgs]
      (.v (s.nextVal + 2))),
   (s.cur, .load (.v s.nextVal) (.v (s.nextVal + 3))),
   (s.cur, .store .spAddr (.v (s.nextVal + 3))),
   (s.cur, .condbr (.isNull (.v (s.nextVal + 2))) s.nextBlock (s.nextBlock + 1)),
   (s.nextBlock, .store .retvalAddr .nullConst),
   (s.nextBlock, .br 1),
   (s.nextBlock + 1, .push (.v (s.nextVal + 2)))]

/-- Emission of CALL_FUNCTION_VAR_KW (ll_compile.cc:914-934), in execution
order: no temporary slot; the address of the real stack-pointer slot is
passed directly, a non-null result branches to the unified error return, and
nothing is pushed. -/
def callFunctionVarKwTrace (numArgs : Int) (s : BState) : List (Nat × Instr) :=
  [(s.cur, .callRt "_PyEval_CallFunctionVarKw" [.spAddr, .intConst numArgs]
      (.v s.nextVal)),
   (s.cur, .condbr (.isNonZero (.v s.nextVal)) s.nextBlock (s.nextBlock + 1)),
   (s.nextBlock, .store .retvalAddr .nullConst),
   (s.nextBlock, .br 1)]

/-- Reading of claim C2 as stated, on one call rule: its emission (from the
canonical state) captures the stack pointer into a temporary slot (an alloca
is emitted) and pushes the returned result. -/
def capturesTempAndPushes (m : Build Unit) : Bool :=
  decide (1 ≤ countAlloca ((m canonState).2.log)) &&
    decide (1 ≤ countPush ((m canonState).2.log))

/-- Claim C2, counterexample: the second function-call lowering rule,
CALL_FUNCTION_VAR_KW (here at argument count 2), emits neither the temporary
stack-pointer slot nor a push of a result, so the claim quantified over every
function-call lowering rule is false. -/
theorem C2_counterexample : capturesTempAndPushes (CALL_FUNCTION_VAR_KW 2) = false := by
  decide

/-- Claim C2 as amended: CALL_FUNCTION captures the current stack pointer by
value into a temporary frame slot, invokes the call-dispatch entry point with
that slot and the argument count, reloads the (possibly updated) pointer from
the temporary back into the real stack-pointer slot, branches to the unified
error return when the result is null and otherwise pushes the result;
CALL_FUNCTION_VAR_KW instead passes the address of the real stack-pointer
slot directly to its entry point, branches to the unified error return when
the returned value is nonzero (non-null), and pushes nothing. -/
theorem C2_call_function_rules (numArgs : Int) (s : BState) :
    ((CALL_FUNCTION numArgs s).2 =
      { s with
        nextBlock := s.nextBlock + 2,
        nextVal := s.nextVal + 4,
        cur := s.nextBlock + 1,
        log := (callFunctionTrace numArgs s).reverse ++ s.log }) ∧
    ((CALL_FUNCTION_VAR_KW numArgs s).2 =
      { s with
        nextBlock := s.nextBlock + 2,
        nextVal := s.nextVal + 1,
        cur := s.nextBlock + 1,
        log := (callFunctionVarKwTrace numArgs s).reverse ++ s.log }) ∧
    countAlloca (callFunctionTrace numArgs s) = 1 ∧
    countPush (callFunctionTrace numArgs s) = 1 ∧
    countAlloca (callFunctionVarKwTrace numArgs s) = 0 ∧
    countPush (callFunctionVarKwTrace numArgs s) = 0 := by
  exact ⟨rfl, rfl, rfl, rfl, rfl, rfl⟩

/-! Claim C3: UNPACK_SEQUENCE. -/

/-- Emission of UNPACK_SEQUENCE (ll_compile.cc:1957-1995), in execution
order.  The blocks are: failure = s.nextBlock, success = s.nextBlock + 1,
and the dealloc/join blocks of the single DecRef of the iterable. -/
def unpackSequenceTrace (sz : Int) (s : BState) : List (Nat × Instr) :=
  [(s.cur, .pop (.v s.nextVal)),
   (s.cur, .load .spAddr (.v (s.nextVal + 1))),
   (s.cur, .gep (.v (s.nextVal + 1)) (.intConst sz) (.v (s.nextVal + 2))),
   (s.cur, .callRt "_PyEval_UnpackIterable"
      [.v s.nextVal, .intConst sz, .v (s.nextVal + 2)] (.v (s.nextVal + 3))),
   (s.cur, .decRefDec (.v s.nextVal) (.v (s.nextVal + 4))),
   (s.cur, .condbr (.isNonZero (.v (s.nextVal + 3 + 1))) (s.nextBlock + 3) (s.nextBlock + 2)),
   (s.nextBlock + 2, .callRtVoid "_PyLlvm_WrapDealloc" [.v s.nextVal]),
   (s.nextBlock + 2, .br (s.nextBlock + 3)),
   (s.nextBlock + 3, .condbr (.isNonZero (.v (s.nextVal + 3))) (s.nextBlock + 1) s.nextBlock),
   (s.nextBlock, .store .retvalAddr .nullConst),
   (s.nextBlock, .br 1),
   (s.nextBlock + 1, .gep (.v (s.nextVal + 1)) (.intConst sz) (.v (s.nextVal + 5))),
   (s.nextBlock + 1, .store .spAddr (.v (s.nextVal + 5)))]

/-- Claim C3: for every requested count, UNPACK_SEQUENCE pops and releases
exactly one value (the iterable), passes the unpack entry point the address
sz slots beyond the loaded stack pointer, branches with success on NONZERO
(first target = success block, inverse of the other entry points), stores the
advanced stack pointer only in the success block (the failure block only
stores the null return value and branches to the unified return block), and
emits no release of the unpacked elements (the only refcount decrement
targets the popped iterable). -/
theorem C3_unpack_sequence (sz : Int) (s : BState) :
    ((UNPACK_SEQUENCE sz s).2 =
      { s with
        nextBlock := s.nextBlock + 4,
        nextVal := s.nextVal + 6,
        cur := s.nextBlock + 1,
        log := (unpackSequenceTrace sz s).reverse ++ s.log }) ∧
    countPop (unpackSequenceTrace sz s) = 1 ∧
    countRelease (unpackSequenceTrace sz s) = 1 ∧
    countReleaseOf (.v 0) (unpackSequenceTrace sz canonState) = 1 ∧
    blockInstrs ((unpackSequenceTrace sz canonState).reverse) 10
      = [.store .retvalAddr .nullConst, .br 1] ∧
    blockInstrs ((unpackSequenceTrace sz canonState).reverse) 11
      = [.gep (.v 1) (.intConst sz) (.v 5), .store .spAddr (.v 5)] := by
  exact ⟨rfl, rfl, rfl, rfl, rfl, rfl⟩

def countCallRtVoid (f : String) (l : List (Nat × Instr)) : Nat :=
  l.countP fun e => match e.2 with | .callRtVoid g _ => g == f | _ => false

/-! Claim C5: the generic binary-operation rules. -/

/-- Emission of GenericBinOp (ll_compile.cc:1190-1210), in execution order:
pop rhs then lhs, one call to the matching entry point with (lhs, rhs),
release lhs then rhs, branch to the failure block (unified error return) on
null result, else push the result. failure = s.nextBlock, success =
s.nextBlock + 1; each DecRef contributes a dealloc block and a join block. -/
def binOpTrace (apifunc : String) (s : BState) : List (Nat × Instr) :=
  [(s.cur, .pop (.v s.nextVal)),
   (s.cur, .pop (.v (s.nextVal + 1))),
   (s.cur, .callRt apifunc [.v (s.nextVal + 1), .v s.nextVal] (.v (s.nextVal + 2))),
   (s.cur, .decRefDec (.v (s.nextVal + 1)) (.v (s.nextVal + 3))),
   (s.cur, .condbr (.isNonZero (.v (s.nextVal + 3))) (s.nextBlock + 3) (s.nextBlock + 2)),
   (s.nextBlock + 2, .callRtVoid "_PyLlvm_WrapDealloc" [.v (s.nextVal + 1)]),
   (s.nextBlock + 2, .br (s.nextBlock + 3)),
   (s.nextBlock + 3, .decRefDec (.v s.nextVal) (.v (s.nextVal + 4))),
   (s.nextBlock + 3, .condbr (.isNonZero (.v (s.nextVal + 4))) (s.nextBlock + 5) (s.nextBlock + 4)),
   (s.nextBlock + 4, .callRtVoid "_PyLlvm_WrapDealloc" [.v s.nextVal]),
   (s.nextBlock + 4, .br (s.nextBlock + 5)),
   (s.nextBlock + 5, .condbr (.isNull (.v (s.nextVal + 2))) s.nextBlock (s.nextBlock + 1)),
   (s.nextBlock, .store .retvalAddr .nullConst),
   (s.nextBlock, .br 1),
   (s.nextBlock + 1, .push (.v (s.nextVal + 2)))]

/-- Emission of GenericPowOp (ll_compile.cc:1248-1271): identical to
binOpTrace except that the runtime call carries Py_None as a fixed third
argument. -/
def powOpTrace (apifunc : String) (s : BState) : List (Nat × Instr) :=
  [(s.cur, .pop (.v s.nextVal)),
   (s.cur, .pop (.v (s.nextVal + 1))),
   (s.cur, .callRt apifunc
      [.v (s.nextVal + 1), .v s.nextVal, .global "_Py_NoneStruct"] (.v (s.nextVal + 2))),
   (s.cur, .decRefDec (.v (s.nextVal + 1)) (.v (s.nextVal + 3))),
   (s.cur, .condbr (.isNonZero (.v (s.nextVal + 3))) (s.nextBlock + 3) (s.nextBlock + 2)),
   (s.nextBlock + 2, .callRtVoid "_PyLlvm_WrapDealloc" [.v (s.nextVal + 1)]),
   (s.nextBlock + 2, .br (s.nextBlock + 3)),
   (s.nextBlock + 3, .decRefDec (.v s.nextVal) (.v (s.nextVal + 4))),
   (s.nextBlock + 3, .condbr (.isNonZero (.v (s.nextVal + 4))) (s.nextBlock + 5) (s.nextBlock + 4)),
   (s.nextBlock + 4, .callRtVoid "_PyLlvm_WrapDealloc" [.v s.nextVal]),
   (s.nextBlock + 4, .br (s.nextBlock + 5)),
   (s.nextBlock + 5, .condbr (.isNull (.v (s.nextVal + 2))) s.nextBlock (s.nextBlock + 1)),
   (s.nextBlock, .store .retvalAddr .nullConst),
   (s.nextBlock, .br 1),
   (s.nextBlock + 1, .push (.v (s.nextVal + 2)))]

/-- Claim C5: every binary-operation rule (the 25 GenericBinOp instances and
the two GenericPowOp instances) pops the right operand first and the left
operand second, makes exactly one runtime call — to its single matching
entry point, with the left operand as first argument and the popped-first
right operand as second — releases each popped operand exactly once,
branches to the unified error return (store null return value, branch to
block 1) when the result is null, and otherwise pushes the result: two pops
and one push, a net stack depth change of -1. -/
theorem C5_binary_ops (apifunc : String) (s : BState) :
    ((GenericBinOp apifunc s).2 =
      { s with
        nextBlock := s.nextBlock + 6,
        nextVal := s.nextVal + 5,
        cur := s.nextBlock + 1,
        log := (binOpTrace apifunc s).reverse ++ s.log }) ∧
    ((GenericPowOp apifunc s).2 =
      { s with
        nextBlock := s.nextBlock + 6,
        nextVal := s.nextVal + 5,
        cur := s.nextBlock + 1,
        log := (powOpTrace apifunc s).reverse ++ s.log }) ∧
    countPop (binOpTrace apifunc s) = 2 ∧
    countPush (binOpTrace apifunc s) = 1 ∧
    countRtCalls (binOpTrace apifunc s) = 1 ∧
    (binOpTrace apifunc s)[2]? = some (s.cur, .callRt apifunc
      [.v (s.nextVal + 1), .v s.nextVal] (.v (s.nextVal + 2))) ∧
    countRelease (binOpTrace apifunc s) = 2 ∧
    countReleaseOf (.v 0) (binOpTrace apifunc canonState) = 1 ∧
    countReleaseOf (.v 1) (binOpTrace apifunc canonState) = 1 ∧
    blockInstrs ((binOpTrace apifunc canonState).reverse) 10
      = [.store .retvalAddr .nullConst, .br 1] ∧
    blockInstrs ((binOpTrace apifunc canonState).reverse) 11 = [.push (.v 2)] ∧
    countPop (powOpTrace apifunc s) = 2 ∧
    countPush (powOpTrace apifunc s) = 1 ∧
    countRtCalls (powOpTrace apifunc s) = 1 ∧
    countRelease (powOpTrace apifunc s) = 2 ∧
    (BINARY_ADD = GenericBinOp "PyNumber_Add" ∧
     BINARY_SUBTRACT = GenericBinOp "PyNumber_Subtract" ∧
     BINARY_MULTIPLY = GenericBinOp "PyNumber_Multiply" ∧
     BINARY_TRUE_DIVIDE = GenericBinOp "PyNumber_TrueDivide" ∧
     BINARY_DIVIDE = GenericBinOp "PyNumber_Divide" ∧
     BINARY_MODULO = GenericBinOp "PyNumber_Remainder" ∧
     BINARY_LSHIFT = GenericBinOp "PyNumber_Lshift" ∧
     BINARY_RSHIFT = GenericBinOp "PyNumber_Rshift" ∧
     BINARY_OR = GenericBinOp "PyNumber_Or" ∧
     BINARY_XOR = GenericBinOp "PyNumber_Xor" ∧
     BINARY_AND = GenericBinOp "PyNumber_And" ∧
     BINARY_FLOOR_DIVIDE = GenericBinOp "PyNumber_FloorDivide" ∧
     BINARY_SUBSCR = GenericBinOp "PyObject_GetItem" ∧
     INPLACE_ADD = GenericBinOp "PyNumber_InPlaceAdd" ∧
     INPLACE_SUBTRACT = GenericBinOp "PyNumber_InPlaceSubtract" ∧
     INPLACE_MULTIPLY = GenericBinOp "PyNumber_InPlaceMultiply" ∧
     INPLACE_TRUE_DIVIDE = GenericBinOp "PyNumber_InPlaceTrueDivide" ∧
     INPLACE_DIVIDE = GenericBinOp "PyNumber_InPlaceDivide" ∧
     INPLACE_MODULO = GenericBinOp "PyNumber_InPlaceRemainder" ∧
     INPLACE_LSHIFT = GenericBinOp "PyNumber_InPlaceLshift" ∧
     INPLACE_RSHIFT = GenericBinOp "PyNumber_InPlaceRshift" ∧
     INPLACE_OR = GenericBinOp "PyNumber_InPlaceOr" ∧
     INPLACE_XOR = GenericBinOp "PyNumber_InPlaceXor" ∧
     INPLACE_AND = GenericBinOp "PyNumber_InPlaceAnd" ∧
     INPLACE_FLOOR_DIVIDE = GenericBinOp "PyNumber_InPlaceFloorDivide" ∧
     BINARY_POWER = GenericPowOp "PyNumber_Power" ∧
     INPLACE_POWER = GenericPowOp "PyNumber_InPlacePower") := by
  refine ⟨rfl, rfl, rfl, rfl, rfl, rfl, rfl, rfl, rfl, rfl, rfl, rfl, rfl, rfl, rfl, ?_⟩
  exact ⟨rfl, rfl, rfl, rfl, rfl, rfl, rfl, rfl, rfl, rfl, rfl, rfl, rfl, rfl,
    rfl, rfl, rfl, rfl, rfl, rfl, rfl, rfl, rfl, rfl, rfl, rfl, rfl⟩

/-! Claim C9: STORE_MAP. -/

/-- Emission of STORE_MAP (ll_compile.cc:1413-1435), in execution order:
pop key, value, then the map; push the map back before the PyDict_SetItem
call; release value then key (never the map); a nonzero result branches to
the unified error return (failure = s.nextBlock). -/
def storeMapTrace (s : BState) : List (Nat × Instr) :=
  [(s.cur, .pop (.v s.nextVal)),
   (s.cur, .pop (.v (s.nextVal + 1))),
   (s.cur, .pop (.v (s.nextVal + 2))),
   (s.cur, .push (.v (s.nextVal + 2))),
   (s.cur, .callRt "PyDict_SetItem"
      [.v (s.nextVal + 2), .v s.nextVal, .v (s.nextVal + 1)] (.v (s.nextVal + 3))),
   (s.cur, .decRefDec (.v (s.nextVal + 1)) (.v (s.nextVal + 4))),
   (s.cur, .condbr (.isNonZero (.v (s.nextVal + 4))) (s.nextBlock + 3) (s.nextBlock + 2)),
   (s.nextBlock + 2, .callRtVoid "_PyLlvm_WrapDealloc" [.v (s.nextVal + 1)]),
   (s.nextBlock + 2, .br (s.nextBlock + 3)),
   (s.nextBlock + 3, .decRefDec (.v s.nextVal) (.v (s.nextVal + 5))),
   (s.nextBlock + 3, .condbr (.isNonZero (.v (s.nextVal + 5))) (s.nextBlock + 5) (s.nextBlock + 4)),
   (s.nextBlock + 4, .callRtVoid "_PyLlvm_WrapDealloc" [.v s.nextVal]),
   (s.nextBlock + 4, .br (s.nextBlock + 5)),
   (s.nextBlock + 5, .condbr (.isNonZero (.v (s.nextVal + 3))) s.nextBlock (s.nextBlock + 1)),
   (s.nextBlock, .store .retvalAddr .nullConst),
   (s.nextBlock, .br 1)]

/-- Claim C9: STORE_MAP pops three values — key first, then value, then the
map — and pushes the map straight back before calling PyDict_SetItem with
(map, key, value); it releases exactly the key and the value, once each, and
never the map; a nonzero result branches to the unified error return: three
pops and one push, a net stack depth change of -2 with the map left on the
stack. -/
theorem C9_store_map (s : BState) :
    ((STORE_MAP s).2 =
      { s with
        nextBlock := s.nextBlock + 6,
        nextVal := s.nextVal + 6,
        cur := s.nextBlock + 1,
        log := (storeMapTrace s).reverse ++ s.log }) ∧
    countPop (storeMapTrace s) = 3 ∧
    countPush (storeMapTrace s) = 1 ∧
    countRelease (storeMapTrace s) = 2 ∧
    countReleaseOf (.v 0) (storeMapTrace canonState) = 1 ∧
    countReleaseOf (.v 1) (storeMapTrace canonState) = 1 ∧
    countReleaseOf (.v 2) (storeMapTrace canonState) = 0 ∧
    countPush (storeMapTrace canonState) =
      (storeMapTrace canonState).countP
        (fun e => match e.2 with | Instr.push a => a == Val.v 2 | _ => false) ∧
    blockInstrs ((storeMapTrace canonState).reverse) 10
      = [.store .retvalAddr .nullConst, .br 1] := by
  exact ⟨rfl, rfl, rfl, rfl, rfl, rfl, rfl, rfl, rfl⟩

/-! Claim C10: DELETE_FAST. -/

/-- Emission of DELETE_FAST (ll_compile.cc:1002-1007 via SetLocal
2114-2122 and XDecRef 2079-2091), in execution order: store null into the
fast-local slot, then the null-skipping release of the previous occupant
(the decrement is skipped entirely when the old value was null). -/
def deleteFastTrace (index : Int) (s : BState) : List (Nat × Instr) :=
  [(s.cur, .gep (.member "fastlocals") (.intConst index) (.v s.nextVal)),
   (s.cur, .load (.v s.nextVal) (.v (s.nextVal + 1))),
   (s.cur, .store (.v s.nextVal) .nullConst),
   (s.cur, .condbr (.isNull (.v (s.nextVal + 1))) (s.nextBlock + 1) s.nextBlock),
   (s.nextBlock, .decRefDec (.v (s.nextVal + 1)) (.v (s.nextVal + 2))),
   (s.nextBlock, .condbr (.isNonZero (.v (s.nextVal + 2))) (s.nextBlock + 3) (s.nextBlock + 2)),
   (s.nextBlock + 2, .callRtVoid "_PyLlvm_WrapDealloc" [.v (s.nextVal + 1)]),
   (s.nextBlock + 2, .br (s.nextBlock + 3)),
   (s.nextBlock + 3, .br (s.nextBlock + 1))]

/-- Claim C10: DELETE_FAST stores null into the target fast-local slot and
releases the previous occupant only behind a null test (the branch on a null
old value jumps straight past the decrement); the emission contains no store
to the return-value slot, no branch to the unified return block, no runtime
call (in particular no unbound-local diagnostic, which LOAD_FAST does emit
on its unbound path), and no stack operation at all, so deleting an unbound
local is a silent no-op and the stack depth is unchanged. -/
theorem C10_delete_fast (index : Int) (s : BState) :
    ((DELETE_FAST index s).2 =
      { s with
        nextBlock := s.nextBlock + 4,
        nextVal := s.nextVal + 3,
        cur := s.nextBlock + 1,
        log := (deleteFastTrace index s).reverse ++ s.log }) ∧
    countPop (deleteFastTrace index s) = 0 ∧
    countPush (deleteFastTrace index s) = 0 ∧
    countRetvalStore (deleteFastTrace index s) = 0 ∧
    countBrOne (deleteFastTrace index canonState) = 0 ∧
    countRtCalls (deleteFastTrace index s) = 0 ∧
    countCallRtVoid "_PyEval_RaiseForUnboundLocal" (deleteFastTrace index s) = 0 ∧
    blockInstrs ((deleteFastTrace index canonState).reverse) 10
      = [.decRefDec (.v 1) (.v 2),
         .condbr (.isNonZero (.v 2)) 13 12] ∧
    countCallRtVoid "_PyEval_RaiseForUnboundLocal" ((LOAD_FAST index canonState).2.log) = 1 := by
  exact ⟨rfl, rfl, rfl, rfl, rfl, rfl, rfl, rfl, rfl⟩

/-! Claim C4: FOR_ITER. -/

/-- Emission of FOR_ITER (ll_compile.cc:1036-1086), in execution order.
Blocks: got_next = s.nextBlock, next_null = s.nextBlock + 1, iter_ended =
s.nextBlock + 2, exception = s.nextBlock + 3, clear_err = s.nextBlock + 4,
propagate = s.nextBlock + 5 (its DecRef uses s.nextBlock + 6 / + 7), and the
iter_ended DecRef uses s.nextBlock + 8 / + 9. -/
def forIterTrace (target : Nat) (s : BState) : List (Nat × Instr) :=
  [(s.cur, .pop (.v s.nextVal)),
   (s.cur, .instr "load_iter_type"),
   (s.cur, .instr "load_tp_iternext"),
   (s.cur, .callIndirect "iternext" [.v s.nextVal] (.v (s.nextVal + 1))),
   (s.cur, .condbr (.isNull (.v (s.nextVal + 1))) (s.nextBlock + 1) s.nextBlock),
   (s.nextBlock + 1, .callRt "PyErr_Occurred" [] (.v (s.nextVal + 2))),
   (s.nextBlock + 1, .condbr (.isNull (.v (s.nextVal + 2))) (s.nextBlock + 2) (s.nextBlock + 3)),
   (s.nextBlock + 3, .load (.global "PyExc_StopIteration") (.v (s.nextVal + 3))),
   (s.nextBlock + 3, .callRt "PyErr_ExceptionMatches" [.v (s.nextVal + 3)] (.v (s.nextVal + 4))),
   (s.nextBlock + 3, .condbr (.isNonZero (.v (s.nextVal + 4))) (s.nextBlock + 4) (s.nextBlock + 5)),
   (s.nextBlock + 5, .decRefDec (.v s.nextVal) (.v (s.nextVal + 5))),
   (s.nextBlock + 5, .condbr (.isNonZero (.v (s.nextVal + 5))) (s.nextBlock + 7) (s.nextBlock + 6)),
   (s.nextBlock + 6, .callRtVoid "_PyLlvm_WrapDealloc" [.v s.nextVal]),
   (s.nextBlock + 6, .br (s.nextBlock + 7)),
   (s.nextBlock + 7, .store .retvalAddr .nullConst),
   (s.nextBlock + 7, .br 1),
   (s.nextBlock + 4, .callRtVoid "PyErr_Clear" []),
   (s.nextBlock + 4, .br (s.nextBlock + 2)),
   (s.nextBlock + 2, .decRefDec (.v s.nextVal) (.v (s.nextVal + 6))),
   (s.nextBlock + 2, .condbr (.isNonZero (.v (s.nextVal + 6))) (s.nextBlock + 9) (s.nextBlock + 8)),
   (s.nextBlock + 8, .callRtVoid "_PyLlvm_WrapDealloc" [.v s.nextVal]),
   (s.nextBlock + 8, .br (s.nextBlock + 9)),
   (s.nextBlock + 9, .br target),
   (s.nextBlock, .push (.v s.nextVal)),
   (s.nextBlock, .push (.v (s.nextVal + 1)))]

/-- Claim C4: FOR_ITER separates its three advance outcomes.  A null
iternext result with a pending StopIteration reaches the clear_err block
(canonical block 14), which calls PyErr_Clear and joins iter_ended (block
12), which releases the iterator and branches to the loop-exit target; any
other pending exception reaches the propagate block (15), which releases the
iterator and falls into the unified error return (store null return value,
branch to block 1) without any PyErr_Clear — the single PyErr_Clear call of
the whole emission sits in the clear_err block; a produced value reaches
got_next (10), which pushes the iterator back and then the value: one pop,
two pushes, net stack depth +1. -/
theorem C4_for_iter (target fallthrough : Nat) (s : BState) :
    ((FOR_ITER target fallthrough s).2 =
      { s with
        nextBlock := s.nextBlock + 10,
        nextVal := s.nextVal + 7,
        cur := s.nextBlock,
        log := (forIterTrace target s).reverse ++ s.log }) ∧
    blockInstrs ((forIterTrace target canonState).reverse) 14
      = [.callRtVoid "PyErr_Clear" [], .br 12] ∧
    blockInstrs ((forIterTrace target canonState).reverse) 12
      = [.decRefDec (.v 0) (.v 6), .condbr (.isNonZero (.v 6)) 19 18] ∧
    blockInstrs ((forIterTrace target canonState).reverse) 19 = [.br target] ∧
    blockInstrs ((forIterTrace target canonState).reverse) 15
      = [.decRefDec (.v 0) (.v 5), .condbr (.isNonZero (.v 5)) 17 16] ∧
    blockInstrs ((forIterTrace target canonState).reverse) 17
      = [.store .retvalAddr .nullConst, .br 1] ∧
    countCallRtVoid "PyErr_Clear" (forIterTrace target s) = 1 ∧
    blockInstrs ((forIterTrace target canonState).reverse) 10
      = [.push (.v 0), .push (.v 1)] ∧
    countPop (forIterTrace target s) = 1 ∧
    countPush (forIterTrace target s) = 2 := by
  exact ⟨rfl, rfl, rfl, rfl, rfl, rfl, rfl, rfl, rfl, rfl⟩

/-! Claim C7: COMPARE_OP. -/

/-- Emission of the six richcompare cases of COMPARE_OP
(ll_compile.cc:1661-1711 and RichCompare 1610-1632), in execution order:
pop rhs then lhs, one call to PyObject_RichCompare with the operator index,
release both operands, branch to the unified error return on null, else push
the returned result directly — no ownership increment is emitted. -/
def richCompareTrace (k : Int) (s : BState) : List (Nat × Instr) :=
  [(s.cur, .pop (.v s.nextVal)),
   (s.cur, .pop (.v (s.nextVal + 1))),
   (s.cur, .callRt "PyObject_RichCompare"
      [.v (s.nextVal + 1), .v s.nextVal, .intConst k] (.v (s.nextVal + 2))),
   (s.cur, .decRefDec (.v (s.nextVal + 1)) (.v (s.nextVal + 3))),
   (s.cur, .condbr (.isNonZero (.v (s.nextVal + 3))) (s.nextBlock + 3) (s.nextBlock + 2)),
   (s.nextBlock + 2, .callRtVoid "_PyLlvm_WrapDealloc" [.v (s.nextVal + 1)]),
   (s.nextBlock + 2, .br (s.nextBlock + 3)),
   (s.nextBlock + 3, .decRefDec (.v s.nextVal) (.v (s.nextVal + 4))),
   (s.nextBlock + 3, .condbr (.isNonZero (.v (s.nextVal + 4))) (s.nextBlock + 5) (s.nextBlock + 4)),
   (s.nextBlock + 4, .callRtVoid "_PyLlvm_WrapDealloc" [.v s.nextVal]),
   (s.nextBlock + 4, .br (s.nextBlock + 5)),
   (s.nextBlock + 5, .condbr (.isNull (.v (s.nextVal + 2))) s.nextBlock (s.nextBlock + 1)),
   (s.nextBlock, .store .retvalAddr .nullConst),
   (s.nextBlock, .br 1),
   (s.nextBlock + 1, .push (.v (s.nextVal + 2)))]

/-- The state after a richcompare COMPARE_OP case. -/
def richCompareOut (k : Int) (s : BState) : BState :=
  { s with
    nextBlock := s.nextBlock + 6,
    nextVal := s.nextVal + 5,
    cur := s.nextBlock + 1,
    log := (richCompareTrace k s).reverse ++ s.log }

/-- Emission of the identity cases of COMPARE_OP (ll_compile.cc:1695-1710),
in execution order: pop rhs then lhs, a pointer comparison (icmp, cmp = "eq"
for is, "ne" for is-not) with no runtime call, release both operands, then
select between the singleton True/False objects, acquire the selected
singleton once, and push it. -/
def identityCmpTrace (cmp : String) (s : BState) : List (Nat × Instr) :=
  [(s.cur, .pop (.v s.nextVal)),
   (s.cur, .pop (.v (s.nextVal + 1))),
   (s.cur, .icmp cmp (.v (s.nextVal + 1)) (.v s.nextVal) (.v (s.nextVal + 2))),
   (s.cur, .decRefDec (.v (s.nextVal + 1)) (.v (s.nextVal + 3))),
   (s.cur, .condbr (.isNonZero (.v (s.nextVal + 3))) (s.nextBlock + 1) s.nextBlock),
   (s.nextBlock, .callRtVoid "_PyLlvm_WrapDealloc" [.v (s.nextVal + 1)]),
   (s.nextBlock, .br (s.nextBlock + 1)),
   (s.nextBlock + 1, .decRefDec (.v s.nextVal) (.v (s.nextVal + 4))),
   (s.nextBlock + 1, .condbr (.isNonZero (.v (s.nextVal + 4))) (s.nextBlock + 3) (s.nextBlock + 2)),
   (s.nextBlock + 2, .callRtVoid "_PyLlvm_WrapDealloc" [.v s.nextVal]),
   (s.nextBlock + 2, .br (s.nextBlock + 3)),
   (s.nextBlock + 3, .select (.v (s.nextVal + 2)) (.global "_Py_TrueStruct")
      (.global "_Py_ZeroStruct") (.v (s.nextVal + 5))),
   (s.nextBlock + 3, .incRef (.v (s.nextVal + 5))),
   (s.nextBlock + 3, .push (.v (s.nextVal + 5)))]

/-- The state after an identity COMPARE_OP case. -/
def identityCmpOut (cmp : String) (s : BState) : BState :=
  { s with
    nextBlock := s.nextBlock + 4,
    nextVal := s.nextVal + 6,
    cur := s.nextBlock + 3,
    log := (identityCmpTrace cmp s).reverse ++ s.log }

/-- Claim C7: the six ordering comparisons each lower to one call of the
single richcompare entry point with their operator index (lt=0, le=1, eq=2,
ne=3, gt=4, ge=5) and push its returned result directly — the emission has
exactly one runtime call and zero ownership increments; the identity and
non-identity comparisons emit no runtime call at all: they compare the two
operand pointers (icmp eq / icmp ne), release both operands, select between
the singleton True and False objects, and push the selected singleton after
exactly one ownership increment. -/
theorem C7_compare_op (s : BState) :
    ((COMPARE_OP .lt s).2 = richCompareOut 0 s) ∧
    ((COMPARE_OP .le s).2 = richCompareOut 1 s) ∧
    ((COMPARE_OP .eq s).2 = richCompareOut 2 s) ∧
    ((COMPARE_OP .ne s).2 = richCompareOut 3 s) ∧
    ((COMPARE_OP .gt s).2 = richCompareOut 4 s) ∧
    ((COMPARE_OP .ge s).2 = richCompareOut 5 s) ∧
    (∀ k : Int, countRtCalls (richCompareTrace k s) = 1 ∧
      countIncRef (richCompareTrace k s) = 0 ∧
      countRelease (richCompareTrace k s) = 2 ∧
      (richCompareTrace k s).getLast? = some (s.nextBlock + 1, .push (.v (s.nextVal + 2)))) ∧
    ((COMPARE_OP .isOp s).2 = identityCmpOut "eq" s) ∧
    ((COMPARE_OP .isNot s).2 = identityCmpOut "ne" s) ∧
    (∀ cmp : String, countRtCalls (identityCmpTrace cmp s) = 0 ∧
      countRelease (identityCmpTrace cmp s) = 2 ∧
      countIncRef (identityCmpTrace cmp s) = 1 ∧
      countIncRefOf (.v 5) (identityCmpTrace cmp canonState) = 1 ∧
      (identityCmpTrace cmp s).getLast? = some (s.nextBlock + 3, .push (.v (s.nextVal + 5)))) := by
  exact ⟨rfl, rfl, rfl, rfl, rfl, rfl, fun k => ⟨rfl, rfl, rfl, rfl⟩,
    rfl, rfl, fun cmp => ⟨rfl, rfl, rfl, rfl, rfl⟩⟩

/-! Claim C1: the unified return path. -/

/-- Claim C1: the unified return block machinery, built by the constructor
before any opcode is lowered, is: block 1 loads the frame's stack-bottom
pointer and enters the loop header (block 2), which compares the stack
pointer against the bottom (unsigned less-or-equal leaves the loop) and
otherwise pops the top value (block 3) and releases it with a null-skipping
release (blocks 5/7/8 skip the decrement entirely on null, block 6 loops
back); the do-return block 4 loads the shared return-value slot and returns
it.  These nine constructor blocks are preserved verbatim by lowering any
program.  Moreover every lowering rule, from any insertion state, only
appends entries that contain no return instruction, and in which every
branch to the unified return block is immediately preceded, in the same
block, by a store to the shared return-value slot; the RETURN_VALUE rule
itself pops the result, stores it into that slot and branches to block 1. -/
theorem C1_unified_return_path :
    (blockInstrs constructorState.log 1
      = [.load (.member "f_valuestack") (.v 1), .br 2]) ∧
    (blockInstrs constructorState.log 2
      = [.load .spAddr (.v 2), .icmp "ule" (.v 2) (.v 1) (.v 3),
         .condbr (.boolVal (.v 3)) 4 3]) ∧
    (blockInstrs constructorState.log 3
      = [.pop (.v 4), .condbr (.isNull (.v 4)) 6 5]) ∧
    (blockInstrs constructorState.log 5
      = [.decRefDec (.v 4) (.v 5), .condbr (.isNonZero (.v 5)) 8 7]) ∧
    (blockInstrs constructorState.log 7
      = [.callRtVoid "_PyLlvm_WrapDealloc" [.v 4], .br 8]) ∧
    (blockInstrs constructorState.log 8 = [.br 6]) ∧
    (blockInstrs constructorState.log 6 = [.br 2]) ∧
    (blockInstrs constructorState.log 4 = [.load .retvalAddr (.v 6), .ret (.v 6)]) ∧
    constructorState.nextBlock = 9 ∧
    (∀ s : BState, (RETURN_VALUE s).2 =
      { s with
        nextVal := s.nextVal + 1,
        log := [(s.cur, .br 1), (s.cur, .store .retvalAddr (.v s.nextVal)),
                (s.cur, .pop (.v s.nextVal))] ++ s.log }) ∧
    (∀ prog : List Opcode, ∀ b, 1 ≤ b → b ≤ 8 →
      blockInstrs (lowerFunction prog).log b = blockInstrs constructorState.log b) ∧
    (∀ (tgt : Nat → Nat) (ft : Nat) (op : Opcode) (s : BState),
      9 ≤ s.cur → s.cur < s.nextBlock → (∀ x ∈ opTargs tgt ft op, 9 ≤ x) →
      ∃ Δ : List (Nat × Instr), (lowerOp tgt ft op s).2.log = Δ ++ s.log ∧
        (∀ e ∈ Δ, isRetE e = false) ∧ guardRev Δ = true) := by
  refine ⟨rfl, rfl, rfl, rfl, rfl, rfl, rfl, rfl, rfl, fun s => rfl, ?_, ?_⟩
  · intro prog b hb1 hb2
    rw [blockInstrs_eq_reverse, blockInstrs_eq_reverse,
      (lowerFunction_inv prog).hfix b hb1 hb2]
  · intro tgt ft op s h1 h2 h3
    obtain ⟨Δ, c1, _, _, _, c5, c6, _⟩ := lowerOp_ruleOK tgt ft op s h1 h2 h3
    exact ⟨Δ, c1, c5, c6⟩

/-- Witness for C1: the rule-shape component instantiated at the POP_TOP
rule from the canonical insertion state, and the preservation component at
the one-opcode program and the do-return block. -/
theorem C1_unified_return_path_witness :
    ((9 ≤ canonState.cur) ∧ (canonState.cur < canonState.nextBlock) ∧
      (∀ x ∈ opTargs opcodeBlock 10 Opcode.POP_TOP, 9 ≤ x)) ∧
    (∃ Δ : List (Nat × Instr),
      (lowerOp opcodeBlock 10 Opcode.POP_TOP canonState).2.log = Δ ++ canonState.log ∧
      (∀ e ∈ Δ, isRetE e = false) ∧ guardRev Δ = true) ∧
    blockInstrs (lowerFunction [Opcode.RETURN_VALUE]).log 4
      = blockInstrs constructorState.log 4 :=
  ⟨⟨by decide, by decide, by decide⟩,
   C1_unified_return_path.2.2.2.2.2.2.2.2.2.2.2 opcodeBlock 10 Opcode.POP_TOP
     canonState (by decide) (by decide) (by decide),
   C1_unified_return_path.2.2.2.2.2.2.2.2.2.2.1 [Opcode.RETURN_VALUE] 4
     (by decide) (by decide)⟩

/-! Claim C8: every block of a finished function ends in one terminator. -/

/-- The final builder state after lowering a whole function body that ends in
RETURN_VALUE. -/
def loweredReturning (body : List Opcode) : BState :=
  lowerFunction (body ++ [Opcode.RETURN_VALUE])

/-- Claim C8: in the finished IR of any lowered function body (any opcode
sequence ending in RETURN_VALUE), every created block decomposes as
non-terminator instructions followed by exactly one terminator; a block ends
in a return instruction exactly when it is the do-return block 4 of the
unified return path; and the fallthrough helper appends an unconditional
branch to the next block only when the current block has no terminator yet. -/
theorem C8_block_terminators (body : List Opcode) :
    (∀ b, b < (loweredReturning body).nextBlock →
      ∃ bdy tm, blockInstrs (loweredReturning body).log b = bdy ++ [tm] ∧
        tm.isTerminator = true ∧ ∀ i ∈ bdy, i.isTerminator = false) ∧
    (blockInstrs (loweredReturning body).log 4
      = [.load .retvalAddr (.v 6), .ret (.v 6)]) ∧
    (∀ (b : Nat) (bdy : List Instr) (v : Val),
      blockInstrs (loweredReturning body).log b = bdy ++ [Instr.ret v] → b = 4) ∧
    (∀ (next : Nat) (s0 : BState), (FallThroughTo next s0).2 =
      if blockTerminated s0.log s0.cur
      then { s0 with cur := next }
      else { s0 with log := (s0.cur, Instr.br next) :: s0.log, cur := next }) := by
  obtain ⟨inv, hcurterm⟩ := lowerFunction_last body
  refine ⟨?_, ?_, ?_, FallThroughTo_run⟩
  · intro b hb
    have htol := inv.htol b
    have hterm : headTermB (blockRev (loweredReturning body).log b) = true := by
      by_cases hc : b = (loweredReturning body).cur
      · rw [hc]; exact hcurterm
      · exact inv.hterm b hb hc (fun j hj1 hj2 => by omega)
    obtain ⟨bdy, tm, hdec, htm, hbdy⟩ := block_decomp _ hterm htol
    exact ⟨bdy, tm, by rw [blockInstrs_eq_reverse]; exact hdec, htm, hbdy⟩
  · show (blockRev (lowerFunction (body ++ [Opcode.RETURN_VALUE])).log 4).reverse = _
    rw [inv.hfix 4 (by omega) (by omega)]
    rfl
  · intro b bdy v heq
    have hrev : blockRev (loweredReturning body).log b = Instr.ret v :: bdy.reverse := by
      have := congrArg List.reverse heq
      rw [blockInstrs_eq_reverse, List.reverse_reverse, List.reverse_append] at this
      simpa using this
    have hmem : Instr.ret v ∈ blockRev (loweredReturning body).log b := by
      rw [hrev]; exact List.mem_cons_self _ _
    exact inv.hret (b, Instr.ret v) (blockRev_mem_log _ b _ hmem) rfl

/-- Witness for C8: the decomposition component at the empty body and the
first opcode block, and the do-return component there too. -/
theorem C8_block_terminators_witness :
    (9 < (loweredReturning []).nextBlock) ∧
    (∃ bdy tm, blockInstrs (loweredReturning []).log 9 = bdy ++ [tm] ∧
      tm.isTerminator = true ∧ ∀ i ∈ bdy, i.isTerminator = false) ∧
    blockInstrs (loweredReturning []).log 4
      = [.load .retvalAddr (.v 6), .ret (.v 6)] :=
  ⟨by decide, (C8_block_terminators []).1 9 (by decide),
   (C8_block_terminators []).2.1⟩

/-! Claim C6: LOAD_CONST followed by STORE_FAST. -/

/-- Emission of LOAD_CONST (ll_compile.cc:609-617), in execution order:
compute the address of the constant-pool entry, load it, acquire one
reference, push. -/
def loadConstTrace (index : Int) (s : BState) : List (Nat × Instr) :=
  [(s.cur, .gep (.member "consts") (.intConst index) (.v s.nextVal)),
   (s.cur, .load (.v s.nextVal) (.v (s.nextVal + 1))),
   (s.cur, .incRef (.v (s.nextVal + 1))),
   (s.cur, .push (.v (s.nextVal + 1)))]

/-- Emission of STORE_FAST (ll_compile.cc:996-1000 via SetLocal 2114-2122
and XDecRef 2079-2091), in execution order: pop the new value, load the old
slot occupant, overwrite the slot, then release the old occupant behind a
null test (a null old value skips the decrement entirely). -/
def storeFastTrace (index : Int) (s : BState) : List (Nat × Instr) :=
  [(s.cur, .pop (.v s.nextVal)),
   (s.cur, .gep (.member "fastlocals") (.intConst index) (.v (s.nextVal + 1))),
   (s.cur, .load (.v (s.nextVal + 1)) (.v (s.nextVal + 2))),
   (s.cur, .store (.v (s.nextVal + 1)) (.v s.nextVal)),
   (s.cur, .condbr (.isNull (.v (s.nextVal + 2))) (s.nextBlock + 1) s.nextBlock),
   (s.nextBlock, .decRefDec (.v (s.nextVal + 2)) (.v (s.nextVal + 3))),
   (s.nextBlock, .condbr (.isNonZero (.v (s.nextVal + 3))) (s.nextBlock + 3) (s.nextBlock + 2)),
   (s.nextBlock + 2, .callRtVoid "_PyLlvm_WrapDealloc" [.v (s.nextVal + 2)]),
   (s.nextBlock + 2, .br (s.nextBlock + 3)),
   (s.nextBlock + 3, .br (s.nextBlock + 1))]

/-- Runtime values for the concrete-scenario interpreter: an object id, a
null pointer, the address of a constant-pool or fast-local slot, or a raw
integer (e.g. the value of a refcount decrement). -/
inductive RVal where
  | obj (o : Nat)
  | nullv
  | addrConst (i : Int)
  | addrLocal (i : Int)
  | intv (k : Int)

/-- The observable runtime machine for executing emitted code: an
environment for the builder's SSA values, the value stack, the fast-local
slots, the constant pool, and a reference count per object. -/
structure Machine where
  env : List (Nat × RVal)
  stack : List Nat
  locals : List (Option Nat)
  consts : List Nat
  refcnt : List (Nat × Int)

def Machine.bindv (m : Machine) (d : Nat) (rv : RVal) : Machine :=
  { m with env := (d, rv) :: m.env }

def Machine.evalVal (m : Machine) : Val → Option RVal
  | .v n => (m.env.find? (fun p => p.1 == n)).map (fun p => p.2)
  | .nullConst => some .nullv
  | .intConst k => some (.intv k)
  | _ => none

def Machine.getRef (m : Machine) (o : Nat) : Option Int :=
  (m.refcnt.find? (fun p => p.1 == o)).map (fun p => p.2)

def Machine.setRef (m : Machine) (o : Nat) (k : Int) : Machine :=
  { m with refcnt := m.refcnt.map (fun p => if p.1 == o then (p.1, k) else p) }

/-- One step of the interpreter, at instruction position pos of block blk of
the emitted log; any instruction outside the supported fragment stops
execution with none, so a successful run certifies which instructions were
reached.  Falling off the end of a block without a terminator halts. -/
def runFrom (log : List (Nat × Instr)) : Nat → Machine → Nat → Nat → Option Machine
  | 0, _, _, _ => none
  | fuel + 1, m, blk, pos =>
    match (blockInstrs log blk)[pos]? with
    | none => some m
    | some i =>
      match i with
      | .gep (.member "consts") (.intConst k) (.v d) =>
          runFrom log fuel (m.bindv d (.addrConst k)) blk (pos + 1)
      | .gep (.member "fastlocals") (.intConst k) (.v d) =>
          runFrom log fuel (m.bindv d (.addrLocal k)) blk (pos + 1)
      | .load a (.v d) =>
          match m.evalVal a with
          | some (.addrConst k) =>
              match m.consts[k.toNat]? with
              | some o => runFrom log fuel (m.bindv d (.obj o)) blk (pos + 1)
              | none => none
          | some (.addrLocal k) =>
              match m.locals[k.toNat]? with
              | some (some o) => runFrom log fuel (m.bindv d (.obj o)) blk (pos + 1)
              | some none => runFrom log fuel (m.bindv d .nullv) blk (pos + 1)
              | none => none
          | _ => none
      | .store a v =>
          match m.evalVal a, m.evalVal v with
          | some (.addrLocal k), some (.obj o) =>
              runFrom log fuel
                { m with locals := m.locals.set k.toNat (some o) } blk (pos + 1)
          | some (.addrLocal k), some .nullv =>
              runFrom log fuel
                { m with locals := m.locals.set k.toNat none } blk (pos + 1)
          | _, _ => none
      | .incRef v =>
          match m.evalVal v with
          | some (.obj o) =>
              match m.getRef o with
              | some r => runFrom log fuel (m.setRef o (r + 1)) blk (pos + 1)
              | none => none
          | _ => none
      | .decRefDec v d =>
          match m.evalVal v, d with
          | some (.obj o), .v dn =>
              match m.getRef o with
              | some r =>
                  runFrom log fuel
                    (((m.setRef o (r - 1)).bindv dn (.intv (r - 1)))) blk (pos + 1)
              | none => none
          | _, _ => none
      | .push v =>
          match m.evalVal v with
          | some (.obj o) => runFrom log fuel { m with stack := o :: m.stack } blk (pos + 1)
          | _ => none
      | .pop (.v d) =>
          match m.stack with
          | o :: rest =>
              runFrom log fuel ({ m with stack := rest }.bindv d (.obj o)) blk (pos + 1)
          | [] => none
      | .br t => runFrom log fuel m t 0
      | .condbr c t f =>
          match c with
          | .isNull v =>
              match m.evalVal v with
              | some .nullv => runFrom log fuel m t 0
              | some (.obj _) => runFrom log fuel m f 0
              | _ => none
          | .isNonZero v =>
              match m.evalVal v with
              | some (.intv k) =>
                  if k == 0 then runFrom log fuel m f 0 else runFrom log fuel m t 0
              | _ => none
          | _ => none
      | _ => none

/-- The builder state after lowering the two-opcode program
LOAD_CONST 0; STORE_FAST 0 through the driver (constructor, two pre-created
opcode blocks, then the two rules). -/
def demoState : BState :=
  (lowerSeq 0 [Opcode.LOAD_CONST 0, Opcode.STORE_FAST 0] (baseState 2)).2

/-- Run the emitted code of demoState from the first opcode block on a
machine with constant pool [object 0], returning the observable outcome:
the fast-local slots, the value stack, and the reference counts. -/
def demoRun (locals : List (Option Nat)) (refcnt : List (Nat × Int)) :
    Option (List (Option Nat) × List Nat × List (Nat × Int)) :=
  (runFrom demoState.log 50
    { env := [], stack := [], locals := locals, consts := [0], refcnt := refcnt }
    9 0).map (fun m => (m.locals, m.stack, m.refcnt))

/-- Claim C6: LOAD_CONST emits exactly one reference acquire — of the value
it then pushes — and STORE_FAST emits no acquire, exactly one decrement —
of the old slot occupant, behind a null test that skips it entirely when the
slot was empty — and no release of the newly stored value.  Running the
lowered two-opcode program LOAD_CONST 0; STORE_FAST 0 on constant pool
[object 0]: with local slot 0 empty and refcount 5, execution ends with the
slot holding object 0, the stack back to empty, and refcount 6 — the single
acquired reference is now held by the slot; with the slot previously holding
object 1 (refcount 3), the old occupant is decremented to 2 and object 0
again ends at refcount 6. -/
theorem C6_load_store_roundtrip (index : Int) (s : BState) :
    ((LOAD_CONST index s).2 =
      { s with
        nextVal := s.nextVal + 2,
        log := (loadConstTrace index s).reverse ++ s.log }) ∧
    ((STORE_FAST index s).2 =
      { s with
        nextBlock := s.nextBlock + 4,
        nextVal := s.nextVal + 4,
        cur := s.nextBlock + 1,
        log := (storeFastTrace index s).reverse ++ s.log }) ∧
    countIncRef (loadConstTrace index s) = 1 ∧
    countIncRefOf (.v 1) (loadConstTrace index canonState) = 1 ∧
    (loadConstTrace index s).getLast? = some (s.cur, .push (.v (s.nextVal + 1))) ∧
    countRelease (loadConstTrace index s) = 0 ∧
    countIncRef (storeFastTrace index s) = 0 ∧
    countRelease (storeFastTrace index s) = 1 ∧
    countReleaseOf (.v 2) (storeFastTrace index canonState) = 1 ∧
    countReleaseOf (.v 0) (storeFastTrace index canonState) = 0 ∧
    countPush (storeFastTrace index s) = 0 ∧
    countPop (storeFastTrace index s) = 1 ∧
    demoRun [none] [(0, 5)] = some ([some 0], [], [(0, 6)]) ∧
    demoRun [some 1] [(0, 5), (1, 3)] = some ([some 0], [], [(0, 6), (1, 2)]) := by
  exact ⟨rfl, rfl, rfl, rfl, rfl, rfl, rfl, rfl, rfl, rfl, rfl, rfl, by decide, by decide⟩

end LlvmFB
